import Mathlib

/-!
# Verification of `v4/export/writer.go` (dumpling)

A shallow embedding of the output stage of the export tool: the file namer
(`outputFileNamer`, `newOutputFileNamer`, `NextName`), the two metadata
writers (`WriteDatabaseMeta`, `WriteTableMeta`, `writeMetaToFile`) and the
rollover loop of `SimpleWriter.WriteTableData` / `CsvWriter.WriteTableData`.

Conventions of the embedding:

* Go's `int` is a 64-bit two's-complement integer; it is an `Int` here and the
  only arithmetic the file performs on it, `namer.Index++`, wraps through
  `wrapInt64`.
* Go's `error` is `Option Error` (`none` is `nil`).
* The side effects of `WriteTableData` (calls of `NextName`, sinks opened,
  encoder invocations, tear-downs, the deferred `Close`) are recorded, in
  program order, in an explicit list of `Event`s.
* The `for { ... }` loop has no bound in the source; the embedding runs it
  with fuel and returns `none` when the fuel is exhausted.
* Functions that live outside `writer.go` (the encoders, `buildChunksIter`,
  `buildFileWriter`, `WriteMeta`, `path.Join`, `text/template`) are
  parameters.  Logging and the `context.Context` argument have no effect on
  what is stated and are left out.
-/

namespace Export

/-! ## Basic types -/

/-- Go's `error` values; `Option Error` plays the role of a possibly-nil error. -/
abbrev Error := String

/-- Two's-complement wrap-around of a mathematical integer into the range of
Go's 64-bit `int`. -/
def wrapInt64 (x : Int) : Int :=
  (x + 9223372036854775808) % 18446744073709551616 - 9223372036854775808

/-- The struct `outputFileNamer` (writer.go, lines 124-128). -/
structure outputFileNamer where
  Index : Int
  DB : String
  Table : String
  deriving DecidableEq, Repr

/-- The part of the interface `TableDataIR` that writer.go reads itself:
the chunk identity.  The row cursor behind `Rows()` is only handed to
`buildChunksIter` and is carried as an abstract value of type `ρ`. -/
structure TableDataIR (ρ : Type) where
  ChunkIndex : Int
  DatabaseName : String
  TableName : String
  Rows : ρ

/-- A parsed `*template.Template`, seen through the one method writer.go calls
on it: `Execute(bf, namer)` appends text to the buffer `bf` (which NextName
creates empty) and returns an error or nil.  The result is the text in the
buffer after the call and the error. -/
structure Template where
  Execute : outputFileNamer → String × Option Error

/-- `newOutputFileNamer` (writer.go, lines 136-142). -/
def newOutputFileNamer {ρ : Type} (ir : TableDataIR ρ) : outputFileNamer :=
  { Index := ir.ChunkIndex, DB := ir.DatabaseName, Table := ir.TableName }

/-- `outputFileNamer.NextName` (writer.go, lines 144-152).  The result is the
returned pair `(string, error)` together with the namer after the call; the
deferred `namer.Index++` runs on both return paths. -/
def outputFileNamer.NextName (namer : outputFileNamer) (tmpl : Template) :
    (String × Option Error) × outputFileNamer :=
  let namer1 : outputFileNamer := { namer with Index := wrapInt64 (namer.Index + 1) }
  let bf := tmpl.Execute namer
  match bf.2 with
  | some err => (("", some err), namer1)
  | none => ((bf.1, none), namer1)

/-! ## A concrete family of templates -/

/-- The nodes of a parsed template made of literal text and field actions
(what `{{.Name}}` parses to). -/
inductive Node where
  | text (s : String)
  | field (name : String)
  deriving DecidableEq, Repr

/-- Evaluation of one node against the namer: text is copied, the exported
fields `Index`, `DB` and `Table` are printed, any other field is an execution
error. -/
def Node.eval (n : outputFileNamer) : Node → Except Error String
  | .text s => .ok s
  | .field name =>
    if name = "Index" then .ok (toString n.Index)
    else if name = "DB" then .ok n.DB
    else if name = "Table" then .ok n.Table
    else .error ("can't evaluate field " ++ name ++ " in type *export.outputFileNamer")

/-- Execution of a list of nodes into a buffer: nodes are written in order and
execution stops at the first error, leaving the text written so far. -/
def execNodes (n : outputFileNamer) : List Node → String → String × Option Error
  | [], bf => (bf, none)
  | nd :: rest, bf =>
    match nd.eval n with
    | .ok s => execNodes n rest (bf ++ s)
    | .error e => (bf, some e)

/-- The template with the given parse tree. -/
def nodeTemplate (nodes : List Node) : Template :=
  { Execute := fun n => execNodes n nodes "" }

/-- The parse tree of the template text `{{.DB}}.{{.Table}}.{{.Index}}`. -/
def dbTableIndexTemplate : Template :=
  nodeTemplate [.field "DB", .text ".", .field "Table", .text ".", .field "Index"]

/-- The names returned by `count` successive calls of `NextName`, with the
namer after the last call. -/
def nextNames (tmpl : Template) : Nat → outputFileNamer →
    List (String × Option Error) × outputFileNamer
  | 0, namer => ([], namer)
  | count + 1, namer =>
    let r := namer.NextName tmpl
    let rest := nextNames tmpl count r.2
    (r.1 :: rest.1, rest.2)

/-! ## Configuration and external collaborators -/

/-- The fields of `Config` that writer.go reads. `FileSize` and
`StatementSize` are `uint64` in the source and are only compared or passed
on. -/
structure Config where
  OutputDirPath : String
  FileSize : Nat
  StatementSize : Nat
  OutputFileTemplate : Template
  NoHeader : Bool
  CsvNullValue : String
  CsvSeparator : String
  CsvDelimiter : String

/-- Modelled from the spec: the sentinel "unspecified" value of the file-size
threshold, which disables rollover; the constant `UnspecifiedSize` is declared
outside writer.go.  No theorem about the writers depends on its value; only
the examples do. -/
def UnspecifiedSize : Nat := 0

/-- The struct `csvOption` (writer.go, lines 130-134). -/
structure csvOption where
  nullValue : String
  separator : ByteArray
  delimiter : ByteArray

/-- The struct literal `metaData` built by `writeMetaToFile`. -/
structure metaData where
  target : String
  metaSQL : String
  deriving DecidableEq, Repr

/-- Library and helper functions used by the metadata path and for paths:
`path.Join` (two arguments), `buildFileWriter` (its error result for a path)
and `WriteMeta` (its error result for the metadata and the file written). -/
structure Lib where
  pathJoin : String → String → String
  buildFileWriter : String → Option Error
  WriteMeta : metaData → String → Option Error

/-- What one encoder invocation does: the state of the chunks iterator after
it, the payloads of the `WriteString` calls it made on the sink it was given,
in order, and the error it returned. -/
structure EncodeResult (σ : Type) where
  iter : σ
  writes : List String
  err : Option Error

/-- The functions of the data path that live outside writer.go:
`buildChunksIter(ir, fileSize, statementSize)` and the two encoders
`WriteInsert(ctx, chunksIter, w)` and
`WriteInsertInCsv(ctx, chunksIter, w, noHeader, opt)`, each as a function of
the chunks iterator state of type `σ`. -/
structure Encoders (ρ σ : Type) where
  buildChunksIter : TableDataIR ρ → Nat → Nat → σ
  WriteInsert : σ → EncodeResult σ
  WriteInsertInCsv : σ → Bool → csvOption → EncodeResult σ

/-- Modelled from the spec: the Bounded File Sink `InterceptFileWriter` built by
`buildInterceptFileWriter`, which is declared outside writer.go.  Its state is
the destination path and the written-any-bytes flag `SomethingIsWritten`; the
payloads written are kept so that the content of each file can be stated. -/
structure InterceptFileWriter where
  path : String
  writes : List String
  SomethingIsWritten : Bool
  deriving DecidableEq, Repr

/-- Modelled from the spec: `buildInterceptFileWriter(path)` returns a fresh
sink for the path whose flag starts false (and a tear-down action, recorded as
an event by the driver). -/
def buildInterceptFileWriter (path : String) : InterceptFileWriter :=
  { path := path, writes := [], SomethingIsWritten := false }

/-- Modelled from the spec: a write on the sink; the flag becomes true on the
first non-empty write. -/
def InterceptFileWriter.WriteString (w : InterceptFileWriter) (s : String) :
    InterceptFileWriter :=
  { w with writes := w.writes ++ [s],
           SomethingIsWritten := w.SomethingIsWritten || decide (s ≠ "") }

/-! ## Metadata writers -/

/-- Effects of the metadata path, in program order. -/
inductive MetaEvent where
  | buildFileWriter (path : String) (err : Option Error)
  | WriteMeta (md : metaData) (path : String) (err : Option Error)
  | tearDown (path : String)
  deriving DecidableEq, Repr

/-- `writeMetaToFile` (writer.go, lines 90-101): the returned error and the
effects. -/
def writeMetaToFile (lib : Lib) (target metaSQL path : String) :
    Option Error × List MetaEvent :=
  match lib.buildFileWriter path with
  | some err => (some err, [.buildFileWriter path (some err)])
  | none =>
    let md : metaData := { target := target, metaSQL := metaSQL }
    let err := lib.WriteMeta md path
    (err, [.buildFileWriter path none, .WriteMeta md path err, .tearDown path])

/-- The struct `SimpleWriter` (writer.go, lines 22-24). -/
structure SimpleWriter where
  cfg : Config

/-- The struct `CsvWriter` (writer.go, lines 103-105). -/
structure CsvWriter where
  cfg : Config

/-- `SimpleWriter.WriteDatabaseMeta` (writer.go, lines 31-35). -/
def SimpleWriter.WriteDatabaseMeta (f : SimpleWriter) (lib : Lib) (db createSQL : String) :
    Option Error × List MetaEvent :=
  let fileName := db ++ "-schema-create.sql"
  let filePath := lib.pathJoin f.cfg.OutputDirPath fileName
  writeMetaToFile lib db createSQL filePath

/-- `SimpleWriter.WriteTableMeta` (writer.go, lines 37-41). -/
def SimpleWriter.WriteTableMeta (f : SimpleWriter) (lib : Lib) (db table createSQL : String) :
    Option Error × List MetaEvent :=
  let fileName := db ++ "." ++ table ++ "-schema.sql"
  let filePath := lib.pathJoin f.cfg.OutputDirPath fileName
  writeMetaToFile lib db createSQL filePath

/-- `CsvWriter.WriteDatabaseMeta` (writer.go, lines 112-116). -/
def CsvWriter.WriteDatabaseMeta (f : CsvWriter) (lib : Lib) (db createSQL : String) :
    Option Error × List MetaEvent :=
  let fileName := db ++ "-schema-create.sql"
  let filePath := lib.pathJoin f.cfg.OutputDirPath fileName
  writeMetaToFile lib db createSQL filePath

/-- `CsvWriter.WriteTableMeta` (writer.go, lines 118-122). -/
def CsvWriter.WriteTableMeta (f : CsvWriter) (lib : Lib) (db table createSQL : String) :
    Option Error × List MetaEvent :=
  let fileName := db ++ "." ++ table ++ "-schema.sql"
  let filePath := lib.pathJoin f.cfg.OutputDirPath fileName
  writeMetaToFile lib db createSQL filePath

/-! ## The rollover driver -/

/-- Effects of `WriteTableData`, in program order.  Sinks are numbered in the
order they are opened, starting at 0. -/
inductive Event where
  | nextName (namer : outputFileNamer) (result : String × Option Error)
  | buildChunksIter
  | openSink (i : Nat) (path : String)
  | encode (i : Nat) (err : Option Error)
  | tearDown (i : Nat)
  | closeRows
  deriving DecidableEq, Repr

/-- The observable result of a run of `WriteTableData`: the returned error,
the namer and the chunks iterator at the end (no iterator exists when the
function returns before `buildChunksIter`), the sinks opened, in order, with
what each received, and the effects. -/
structure Outcome (σ : Type) where
  ret : Option Error
  namer : outputFileNamer
  iter : Option σ
  files : List InterceptFileWriter
  events : List Event

/-- The `for` loop of `SimpleWriter.WriteTableData` (writer.go, lines 63-84).
`i` is the number of sinks opened so far; `fileName`, `namer` and `chunksIter` are the
loop-carried variables.  The sink always is an `*InterceptFileWriter`, so the
type assertion of line 72 succeeds and the test is on the flag alone.  The
result is `none` when the fuel does not suffice for the loop to exit. -/
def SimpleWriter.writeTableDataLoop {ρ σ : Type} (f : SimpleWriter) (lib : Lib)
    (encs : Encoders ρ σ) :
    Nat → Nat → String → outputFileNamer → σ → Option (Outcome σ)
  | 0, _, _, _, _ => none
  | fuel + 1, i, fileName, namer, chunksIter =>
    let filePath := lib.pathJoin f.cfg.OutputDirPath fileName
    let fileWriter := buildInterceptFileWriter filePath
    let res := encs.WriteInsert chunksIter
    let fileWriter := res.writes.foldl InterceptFileWriter.WriteString fileWriter
    let evs := [Event.openSink i filePath, Event.encode i res.err, Event.tearDown i]
    match res.err with
    | some err =>
      some { ret := some err, namer := namer, iter := some res.iter,
             files := [fileWriter], events := evs }
    | none =>
      if !fileWriter.SomethingIsWritten then
        some { ret := none, namer := namer, iter := some res.iter,
               files := [fileWriter], events := evs }
      else if f.cfg.FileSize = UnspecifiedSize then
        some { ret := none, namer := namer, iter := some res.iter,
               files := [fileWriter], events := evs }
      else
        let r := namer.NextName f.cfg.OutputFileTemplate
        let ev := Event.nextName namer r.1
        match r.1.2 with
        | some err =>
          some { ret := some err, namer := r.2, iter := some res.iter,
                 files := [fileWriter], events := evs ++ [ev] }
        | none =>
          (SimpleWriter.writeTableDataLoop f lib encs fuel (i + 1) (r.1.1 ++ ".sql") r.2 res.iter).map
            fun out => { out with files := fileWriter :: out.files,
                                  events := evs ++ ev :: out.events }

/-- `SimpleWriter.WriteTableData` (writer.go, lines 43-88): the first
`NextName` and the early return on its error, `buildChunksIter`, the
registration of the deferred `chunksIter.Rows().Close()`, the loop, and the
deferred call when the function returns. -/
def SimpleWriter.WriteTableData {ρ σ : Type} (f : SimpleWriter) (lib : Lib)
    (encs : Encoders ρ σ) (fuel : Nat) (ir : TableDataIR ρ) : Option (Outcome σ) :=
  let namer := newOutputFileNamer ir
  let r := namer.NextName f.cfg.OutputFileTemplate
  let ev := Event.nextName namer r.1
  match r.1.2 with
  | some err =>
    some { ret := some err, namer := r.2, iter := none, files := [], events := [ev] }
  | none =>
    let chunksIter := encs.buildChunksIter ir f.cfg.FileSize f.cfg.StatementSize
    (f.writeTableDataLoop lib encs fuel 0 (r.1.1 ++ ".sql") r.2 chunksIter).map
      fun out =>
        { out with events := ev :: Event.buildChunksIter :: out.events ++ [Event.closeRows] }

/-- The `for` loop of `CsvWriter.WriteTableData` (writer.go, lines 172-193).
`i` is the number of sinks opened so far; `fileName`, `namer` and `chunksIter` are the
loop-carried variables.  The sink always is an `*InterceptFileWriter`, so the
type assertion of line 181 succeeds and the test is on the flag alone.  The
result is `none` when the fuel does not suffice for the loop to exit. -/
def CsvWriter.writeTableDataLoop {ρ σ : Type} (f : CsvWriter) (lib : Lib)
    (encs : Encoders ρ σ) (opt : csvOption) :
    Nat → Nat → String → outputFileNamer → σ → Option (Outcome σ)
  | 0, _, _, _, _ => none
  | fuel + 1, i, fileName, namer, chunksIter =>
    let filePath := lib.pathJoin f.cfg.OutputDirPath fileName
    let fileWriter := buildInterceptFileWriter filePath
    let res := encs.WriteInsertInCsv chunksIter f.cfg.NoHeader opt
    let fileWriter := res.writes.foldl InterceptFileWriter.WriteString fileWriter
    let evs := [Event.openSink i filePath, Event.encode i res.err, Event.tearDown i]
    match res.err with
    | some err =>
      some { ret := some err, namer := namer, iter := some res.iter,
             files := [fileWriter], events := evs }
    | none =>
      if !fileWriter.SomethingIsWritten then
        some { ret := none, namer := namer, iter := some res.iter,
               files := [fileWriter], events := evs }
      else if f.cfg.FileSize = UnspecifiedSize then
        some { ret := none, namer := namer, iter := some res.iter,
               files := [fileWriter], events := evs }
      else
        let r := namer.NextName f.cfg.OutputFileTemplate
        let ev := Event.nextName namer r.1
        match r.1.2 with
        | some err =>
          some { ret := some err, namer := r.2, iter := some res.iter,
                 files := [fileWriter], events := evs ++ [ev] }
        | none =>
          (CsvWriter.writeTableDataLoop f lib encs opt fuel (i + 1) (r.1.1 ++ ".csv") r.2 res.iter).map
            fun out => { out with files := fileWriter :: out.files,
                                  events := evs ++ ev :: out.events }

/-- `CsvWriter.WriteTableData` (writer.go, lines 154-197): as for the
`SimpleWriter`, with the CSV options built before the loop. -/
def CsvWriter.WriteTableData {ρ σ : Type} (f : CsvWriter) (lib : Lib)
    (encs : Encoders ρ σ) (fuel : Nat) (ir : TableDataIR ρ) : Option (Outcome σ) :=
  let namer := newOutputFileNamer ir
  let r := namer.NextName f.cfg.OutputFileTemplate
  let ev := Event.nextName namer r.1
  match r.1.2 with
  | some err =>
    some { ret := some err, namer := r.2, iter := none, files := [], events := [ev] }
  | none =>
    let chunksIter := encs.buildChunksIter ir f.cfg.FileSize f.cfg.StatementSize
    let opt : csvOption :=
      { nullValue := f.cfg.CsvNullValue,
        separator := f.cfg.CsvSeparator.toUTF8,
        delimiter := f.cfg.CsvDelimiter.toUTF8 }
    (f.writeTableDataLoop lib encs opt fuel 0 (r.1.1 ++ ".csv") r.2 chunksIter).map
      fun out =>
        { out with events := ev :: Event.buildChunksIter :: out.events ++ [Event.closeRows] }

/-- The common form of the two loops: the loop of `SimpleWriter.WriteTableData`
and of `CsvWriter.WriteTableData` with the extension and the encoder
invocation as parameters (`SimpleWriter.writeTableDataLoop_eq_rolloverLoop` and
`CsvWriter.writeTableDataLoop_csv_eq_rolloverLoop` below). -/
def rolloverLoop {σ : Type} (lib : Lib) (cfg : Config) (ext : String)
    (encode : σ → EncodeResult σ) :
    Nat → Nat → String → outputFileNamer → σ → Option (Outcome σ)
  | 0, _, _, _, _ => none
  | fuel + 1, i, fileName, namer, chunksIter =>
    let filePath := lib.pathJoin cfg.OutputDirPath fileName
    let fileWriter := buildInterceptFileWriter filePath
    let res := encode chunksIter
    let fileWriter := res.writes.foldl InterceptFileWriter.WriteString fileWriter
    let evs := [Event.openSink i filePath, Event.encode i res.err, Event.tearDown i]
    match res.err with
    | some err =>
      some { ret := some err, namer := namer, iter := some res.iter,
             files := [fileWriter], events := evs }
    | none =>
      if !fileWriter.SomethingIsWritten then
        some { ret := none, namer := namer, iter := some res.iter,
               files := [fileWriter], events := evs }
      else if cfg.FileSize = UnspecifiedSize then
        some { ret := none, namer := namer, iter := some res.iter,
               files := [fileWriter], events := evs }
      else
        let r := namer.NextName cfg.OutputFileTemplate
        let ev := Event.nextName namer r.1
        match r.1.2 with
        | some err =>
          some { ret := some err, namer := r.2, iter := some res.iter,
                 files := [fileWriter], events := evs ++ [ev] }
        | none =>
          (rolloverLoop lib cfg ext encode fuel (i + 1) (r.1.1 ++ ext) r.2 res.iter).map
            fun out => { out with files := fileWriter :: out.files,
                                  events := evs ++ ev :: out.events }

/-- The common form of the two `WriteTableData` functions, over the common
form of their loops (`Writer.WriteTableData_eq` below). -/
def writeTableData {ρ σ : Type} (lib : Lib) (cfg : Config) (ext : String)
    (build : TableDataIR ρ → Nat → Nat → σ) (encode : σ → EncodeResult σ)
    (fuel : Nat) (ir : TableDataIR ρ) : Option (Outcome σ) :=
  let namer := newOutputFileNamer ir
  let r := namer.NextName cfg.OutputFileTemplate
  let ev := Event.nextName namer r.1
  match r.1.2 with
  | some err =>
    some { ret := some err, namer := r.2, iter := none, files := [], events := [ev] }
  | none =>
    let chunksIter := build ir cfg.FileSize cfg.StatementSize
    (rolloverLoop lib cfg ext encode fuel 0 (r.1.1 ++ ext) r.2 chunksIter).map
      fun out =>
        { out with events := ev :: Event.buildChunksIter :: out.events ++ [Event.closeRows] }

/-! ## Observations on outcomes -/

/-- Number of `NextName` calls in a list of effects. -/
def countNextName (evs : List Event) : Nat :=
  (evs.filter fun e => match e with | .nextName _ _ => true | _ => false).length

/-- Number of encoder invocations in a list of effects. -/
def countEncode (evs : List Event) : Nat :=
  (evs.filter fun e => match e with | .encode _ _ => true | _ => false).length

/-- Number of sinks opened in a list of effects. -/
def countOpen (evs : List Event) : Nat :=
  (evs.filter fun e => match e with | .openSink _ _ => true | _ => false).length

/-- Number of calls of the row source's `Close` in a list of effects. -/
def countClose (evs : List Event) : Nat :=
  (evs.filter fun e => decide (e = Event.closeRows)).length

/-- Number of tear-downs of sink `i` in a list of effects. -/
def countTearDown (i : Nat) (evs : List Event) : Nat :=
  (evs.filter fun e => decide (e = Event.tearDown i)).length

/-- The data files of a run: the sinks that received bytes.  (A sink whose flag
stayed false is the one whose result the driver discards.) -/
def dataFiles {σ : Type} (out : Outcome σ) : List InterceptFileWriter :=
  out.files.filter fun w => w.SomethingIsWritten

/-- The value of a Go `int` that starts at `c` after `k` executions of `++`:
`c + k` in Go's wrapping arithmetic. -/
def indexAfter (c : Int) (k : Nat) : Int :=
  if k = 0 then c else wrapInt64 (c + k)

/-- Whether an encoder invocation wrote any byte, which is the value of the
sink's flag after it. -/
def EncodeResult.wroteBytes {σ : Type} (res : EncodeResult σ) : Bool :=
  res.writes.any fun s => decide (s ≠ "")

/-- The error an effect reports, if it is a `NextName` call or an encoder
invocation that returned one. -/
def Event.failure : Event → Option Error
  | .nextName _ r => r.2
  | .encode _ err => err
  | _ => none

/-- The implementations of the interface `Writer` (writer.go, lines 16-20). -/
inductive Writer where
  | simple (f : SimpleWriter)
  | csv (f : CsvWriter)

/-- The configuration of a writer. -/
def Writer.cfg : Writer → Config
  | .simple f => f.cfg
  | .csv f => f.cfg

/-- The extension a writer appends to every rendered name. -/
def Writer.ext : Writer → String
  | .simple _ => ".sql"
  | .csv _ => ".csv"

/-- The encoder invocation a writer makes in its loop. -/
def Writer.encode {ρ σ : Type} (encs : Encoders ρ σ) : Writer → σ → EncodeResult σ
  | .simple _ => encs.WriteInsert
  | .csv f => fun it => encs.WriteInsertInCsv it f.cfg.NoHeader
      { nullValue := f.cfg.CsvNullValue,
        separator := f.cfg.CsvSeparator.toUTF8,
        delimiter := f.cfg.CsvDelimiter.toUTF8 }

/-- Dispatch of `WriteTableData` through the interface. -/
def Writer.WriteTableData {ρ σ : Type} (w : Writer) (lib : Lib) (encs : Encoders ρ σ)
    (fuel : Nat) (ir : TableDataIR ρ) : Option (Outcome σ) :=
  match w with
  | .simple f => f.WriteTableData lib encs fuel ir
  | .csv f => f.WriteTableData lib encs fuel ir

/-- Dispatch of `WriteDatabaseMeta` through the interface. -/
def Writer.WriteDatabaseMeta (w : Writer) (lib : Lib) (db createSQL : String) :
    Option Error × List MetaEvent :=
  match w with
  | .simple f => f.WriteDatabaseMeta lib db createSQL
  | .csv f => f.WriteDatabaseMeta lib db createSQL

/-- Dispatch of `WriteTableMeta` through the interface. -/
def Writer.WriteTableMeta (w : Writer) (lib : Lib) (db table createSQL : String) :
    Option Error × List MetaEvent :=
  match w with
  | .simple f => f.WriteTableMeta lib db table createSQL
  | .csv f => f.WriteTableMeta lib db table createSQL

/-- The sink at `path` as the driver finds it after an encoder invocation. -/
def sinkAfter {σ : Type} (path : String) (res : EncodeResult σ) : InterceptFileWriter :=
  { path := path, writes := res.writes, SomethingIsWritten := res.wroteBytes }

/-- The effects of one round of the loop on sink `i`: open, encode, tear down. -/
def roundEvents (i : Nat) (path : String) (err : Option Error) : List Event :=
  [Event.openSink i path, Event.encode i err, Event.tearDown i]

/-! ## Concrete collaborators for examples -/

/-- A `path.Join` for two clean, non-empty elements. -/
def slashJoin (dir file : String) : String := dir ++ "/" ++ file

/-- A library whose file operations succeed. -/
def okLib : Lib :=
  { pathJoin := slashJoin, buildFileWriter := fun _ => none, WriteMeta := fun _ _ => none }

/-- A library in which no file can be opened. -/
def noOpenLib : Lib :=
  { pathJoin := slashJoin, buildFileWriter := fun _ => some "permission denied",
    WriteMeta := fun _ _ => none }

/-- The encoding of a row in the examples: the row followed by a newline. -/
def encodeLine (r : String) : String := r ++ "\n"

/-- An encoder over a list of rows that consumes and writes at most `k` rows
per invocation. -/
def takeEncoder (k : Nat) (rows : List String) : EncodeResult (List String) :=
  { iter := rows.drop k, writes := (rows.take k).map encodeLine, err := none }

/-- An encoder that writes a header on every invocation and consumes no row. -/
def headerEncoder (rows : List String) : EncodeResult (List String) :=
  { iter := rows, writes := ["header"], err := none }

/-- An encoder that fails on its first invocation. -/
def failEncoder (rows : List String) : EncodeResult (List String) :=
  { iter := rows, writes := [], err := some "write failed" }

/-- Encoders built from one step function, with the row cursor as iterator. -/
def encodersOf (step : List String → EncodeResult (List String)) :
    Encoders (List String) (List String) :=
  { buildChunksIter := fun ir _ _ => ir.Rows,
    WriteInsert := step,
    WriteInsertInCsv := fun it _ _ => step it }

/-- A configuration with the given template and file size. -/
def sampleConfig (tmpl : Template) (fileSize : Nat) : Config :=
  { OutputDirPath := "out", FileSize := fileSize, StatementSize := 1000,
    OutputFileTemplate := tmpl, NoHeader := false,
    CsvNullValue := "NULL", CsvSeparator := ",", CsvDelimiter := "q" }

/-- A row source with chunk identity (`d`, `t`, 2). -/
def sampleIR (rows : List String) : TableDataIR (List String) :=
  { ChunkIndex := 2, DatabaseName := "d", TableName := "t", Rows := rows }

/-- The path a metadata effect opens, for the effects that open a file. -/
def MetaEvent.opened : MetaEvent → Option String
  | .buildFileWriter path _ => some path
  | _ => none

/-- The first effect of a run that reports an error. -/
def firstFailure (evs : List Event) : Option Event :=
  evs.find? fun e => e.failure.isSome

/-- The effects that follow the first effect reporting an error (none when no
effect reports one). -/
def afterFirstFailure : List Event → List Event
  | [] => []
  | e :: es => if e.failure.isSome then es else afterFirstFailure es

/-- The payloads written to the sinks of a run, concatenated in the order the
sinks were opened. -/
def writtenPayloads {σ : Type} (out : Outcome σ) : List String :=
  (out.files.map fun s => s.writes).flatten

/-- The encoder model of the no-data-loss property: `remaining` gives the rows
the chunks iterator has not yet produced; every invocation consumes a leading
segment of them and writes exactly those rows to its sink, one payload
(`encodeRow`) per row. -/
def WritesConsumedRows {σ R : Type} (remaining : σ → List R) (encodeRow : R → String)
    (enc : σ → EncodeResult σ) : Prop :=
  ∀ s, ∃ k, remaining (enc s).iter = (remaining s).drop k ∧
    (enc s).writes = ((remaining s).take k).map encodeRow

/-- A template whose execution fails: it refers to a field the namer does not
have (the template text `{{.Foo}}`). -/
def badFieldTemplate : Template :=
  nodeTemplate [.field "Foo"]

/-- A `SimpleWriter` writing to `out` with the template
`{{.DB}}.{{.Table}}.{{.Index}}` and the given file size. -/
def sampleSimple (fileSize : Nat) : Writer :=
  .simple { cfg := sampleConfig dbTableIndexTemplate fileSize }

/-- A `CsvWriter` writing to `out` with the template
`{{.DB}}.{{.Table}}.{{.Index}}` and the given file size. -/
def sampleCsv (fileSize : Nat) : Writer :=
  .csv { cfg := sampleConfig dbTableIndexTemplate fileSize }

/-! ## Arithmetic of the sequence index -/

theorem wrapInt64_of_inRange (x : Int) (hlo : -9223372036854775808 ≤ x)
    (hhi : x ≤ 9223372036854775807) : wrapInt64 x = x := by
  unfold wrapInt64; omega

theorem wrapInt64_wrap_add (x y : Int) : wrapInt64 (wrapInt64 x + y) = wrapInt64 (x + y) := by
  unfold wrapInt64; omega

theorem indexAfter_zero (c : Int) : indexAfter c 0 = c := by
  simp [indexAfter]

theorem indexAfter_succ (c : Int) (k : Nat) :
    indexAfter c (k + 1) = wrapInt64 (indexAfter c k + 1) := by
  unfold indexAfter
  by_cases hk : k = 0
  · subst hk; simp
  · simp only [hk, if_false, Nat.succ_ne_zero, wrapInt64_wrap_add]
    congr 1; push_cast; ring

theorem indexAfter_shift (c : Int) (k : Nat) :
    indexAfter (wrapInt64 (c + 1)) k = indexAfter c (k + 1) := by
  unfold indexAfter
  by_cases hk : k = 0
  · subst hk; simp
  · simp only [hk, if_false, Nat.succ_ne_zero, wrapInt64_wrap_add]
    congr 1; push_cast; ring

theorem indexAfter_of_inRange (c : Int) (k : Nat) (hlo : -9223372036854775808 ≤ c)
    (hhi : c + k ≤ 9223372036854775807) : indexAfter c k = c + k := by
  unfold indexAfter
  by_cases hk : k = 0
  · subst hk; simp
  · simp only [hk, if_false]
    exact wrapInt64_of_inRange _ (by omega) hhi

theorem indexAfter_injOn (c : Int) (k k' : Nat) (hk : k < 18446744073709551616)
    (hk' : k' < 18446744073709551616) (h : indexAfter c k = indexAfter c k') : k = k' := by
  unfold indexAfter wrapInt64 at h
  by_cases h0 : k = 0 <;> by_cases h0' : k' = 0 <;> simp only [h0, h0', if_true, if_false] at h
  · omega
  · omega
  · omega
  · omega

/-! ## The file namer -/

theorem NextName_namer (namer : outputFileNamer) (tmpl : Template) :
    (namer.NextName tmpl).2 = { namer with Index := wrapInt64 (namer.Index + 1) } := by
  cases h : (tmpl.Execute namer).2 <;> simp [outputFileNamer.NextName, h]

theorem NextName_result (namer : outputFileNamer) (tmpl : Template) :
    (namer.NextName tmpl).1 =
      match (tmpl.Execute namer).2 with
      | some err => ("", some err)
      | none => ((tmpl.Execute namer).1, none) := by
  cases h : (tmpl.Execute namer).2 <;> simp [outputFileNamer.NextName, h]

theorem NextName_ok (namer : outputFileNamer) (tmpl : Template)
    (h : (namer.NextName tmpl).1.2 = none) :
    (namer.NextName tmpl).1.1 = (tmpl.Execute namer).1 := by
  rw [NextName_result] at h ⊢
  cases he : (tmpl.Execute namer).2 <;> simp [he] at h ⊢

/-- C1: for every namer state (Index = i, DB = d, Table = t) and every
template, `NextName` leaves the namer at Index = i + 1 in Go's `int`
arithmetic (`wrapInt64 (i + 1)`, which is `i + 1` for every `int` below the
largest one) with DB and Table unchanged; it returns the template rendered
against the pre-call state when execution succeeds, and the empty string with
the error when execution fails, the index being advanced in both cases.  With
the template `{{.DB}}.{{.Table}}.{{.Index}}`, DB "d", Table "t" and Index 2,
two successive calls return "d.t.2" and "d.t.3". -/
theorem NextName_contract (i : Int) (d t : String) (tmpl : Template) :
    (({ Index := i, DB := d, Table := t } : outputFileNamer).NextName tmpl).2
        = { Index := wrapInt64 (i + 1), DB := d, Table := t } ∧
    (-9223372036854775808 ≤ i ∧ i < 9223372036854775807 → wrapInt64 (i + 1) = i + 1) ∧
    ((tmpl.Execute { Index := i, DB := d, Table := t }).2 = none →
      (({ Index := i, DB := d, Table := t } : outputFileNamer).NextName tmpl).1
        = ((tmpl.Execute { Index := i, DB := d, Table := t }).1, none)) ∧
    (∀ err, (tmpl.Execute { Index := i, DB := d, Table := t }).2 = some err →
      (({ Index := i, DB := d, Table := t } : outputFileNamer).NextName tmpl).1
        = ("", some err)) ∧
    (nextNames dbTableIndexTemplate 2 { Index := 2, DB := "d", Table := "t" }).1
        = [("d.t.2", none), ("d.t.3", none)] := by
  refine ⟨NextName_namer _ _, ?_, ?_, ?_, by decide⟩
  · rintro ⟨hlo, hhi⟩
    exact wrapInt64_of_inRange _ (by omega) (by omega)
  · intro h
    rw [NextName_result, h]
  · intro err h
    rw [NextName_result, h]

theorem nextNames_length (tmpl : Template) (count : Nat) (namer : outputFileNamer) :
    (nextNames tmpl count namer).1.length = count := by
  induction count generalizing namer with
  | zero => rfl
  | succ n ih => simp [nextNames, ih]

theorem nextNames_getElem? (tmpl : Template) (count : Nat) (namer : outputFileNamer)
    (k : Nat) (hk : k < count) :
    (nextNames tmpl count namer).1[k]? =
      some (({ namer with Index := indexAfter namer.Index k } : outputFileNamer).NextName tmpl).1 := by
  induction count generalizing namer k with
  | zero => omega
  | succ n ih =>
    cases k with
    | zero => simp [nextNames, indexAfter_zero]
    | succ k =>
      simp only [nextNames, List.getElem?_cons_succ]
      rw [ih _ k (by omega), NextName_namer]
      simp only [indexAfter_shift]

theorem nextNames_namer (tmpl : Template) (count : Nat) (namer : outputFileNamer) :
    (nextNames tmpl count namer).2 = { namer with Index := indexAfter namer.Index count } := by
  induction count generalizing namer with
  | zero => simp [nextNames, indexAfter_zero]
  | succ n ih =>
    simp only [nextNames]
    rw [ih, NextName_namer]
    simp only [indexAfter_shift]

/-! ## Decimal rendering of the index is injective -/

theorem digitChar_ne_minus (x : Nat) (hx : x < 10) : Nat.digitChar x ≠ '-' := by
  interval_cases x <;> decide

theorem digitChar_toNat (x : Nat) (hx : x < 10) : (Nat.digitChar x).toNat - 48 = x := by
  interval_cases x <;> rfl

theorem toDigitsCore_decode (fuel n : Nat) (ds : List Char) (h : n < fuel) :
    ∃ pre, Nat.toDigitsCore 10 fuel n ds = pre ++ ds ∧
      pre.foldl (fun a c => 10 * a + (c.toNat - 48)) 0 = n ∧
      (∀ c ∈ pre, c ≠ '-') := by
  induction fuel generalizing n ds with
  | zero => omega
  | succ fuel ih =>
    unfold Nat.toDigitsCore
    by_cases h0 : n / 10 = 0
    · refine ⟨[Nat.digitChar (n % 10)], by simp [h0], ?_, ?_⟩
      · simp only [List.foldl_cons, List.foldl_nil]
        rw [digitChar_toNat _ (Nat.mod_lt _ (by decide))]
        omega
      · intro c hc
        simp only [List.mem_singleton] at hc
        subst hc
        exact digitChar_ne_minus _ (Nat.mod_lt _ (by decide))
    · obtain ⟨pre, h1, h2, h3⟩ := ih (n / 10) (Nat.digitChar (n % 10) :: ds) (by omega)
      refine ⟨pre ++ [Nat.digitChar (n % 10)], by simp [h0, h1], ?_, ?_⟩
      · rw [List.foldl_append, h2]
        simp only [List.foldl_cons, List.foldl_nil]
        rw [digitChar_toNat _ (Nat.mod_lt _ (by decide))]
        omega
      · intro c hc
        simp only [List.mem_append, List.mem_singleton] at hc
        rcases hc with hc | hc
        · exact h3 c hc
        · subst hc
          exact digitChar_ne_minus _ (Nat.mod_lt _ (by decide))

theorem natRepr_injective (n m : Nat) (h : Nat.repr n = Nat.repr m) : n = m := by
  obtain ⟨p1, h1, h2, _⟩ := toDigitsCore_decode (n + 1) n [] (by omega)
  obtain ⟨p2, h3, h4, _⟩ := toDigitsCore_decode (m + 1) m [] (by omega)
  have hd := congrArg String.data h
  simp only [Nat.repr, Nat.toDigits, List.asString] at hd
  rw [h1, h3] at hd
  simp only [List.append_nil] at hd
  rw [← h2, ← h4, hd]

theorem natRepr_ne_minus (n : Nat) (s : String) : Nat.repr n ≠ "-" ++ s := by
  obtain ⟨p1, h1, h2, h3⟩ := toDigitsCore_decode (n + 1) n [] (by omega)
  intro h
  have hd := congrArg String.data h
  simp only [Nat.repr, Nat.toDigits, List.asString, String.data_append] at hd
  rw [h1] at hd
  simp only [List.append_nil] at hd
  have : '-' ∈ p1 := by
    rw [hd]
    simp
  exact h3 _ this rfl

theorem string_append_left_cancel (a b c : String) (h : a ++ b = a ++ c) : b = c := by
  have hd := congrArg String.data h
  simp only [String.data_append] at hd
  exact String.ext (List.append_cancel_left hd)

theorem intToString_injective (i j : Int) (h : toString i = toString j) : i = j := by
  cases i with
  | ofNat n =>
    cases j with
    | ofNat m =>
      have : Nat.repr n = Nat.repr m := h
      rw [natRepr_injective n m this]
    | negSucc m =>
      have : Nat.repr n = "-" ++ Nat.repr (m + 1) := h
      exact absurd this (natRepr_ne_minus _ _)
  | negSucc n =>
    cases j with
    | ofNat m =>
      have : "-" ++ Nat.repr (n + 1) = Nat.repr m := h
      exact absurd this.symm (natRepr_ne_minus _ _)
    | negSucc m =>
      have : "-" ++ Nat.repr (n + 1) = "-" ++ Nat.repr (m + 1) := h
      have := natRepr_injective _ _ (string_append_left_cancel _ _ _ this)
      have e : n = m := by omega
      rw [e]

theorem dbTableIndexTemplate_ok (nm : outputFileNamer) :
    (dbTableIndexTemplate.Execute nm).2 = none := by
  simp [dbTableIndexTemplate, nodeTemplate, execNodes, Node.eval]

theorem dbTableIndexTemplate_render (i : Int) (d t : String) :
    (({ Index := i, DB := d, Table := t } : outputFileNamer).NextName dbTableIndexTemplate).1
      = ("" ++ d ++ "." ++ t ++ "." ++ toString i, none) := by
  simp [outputFileNamer.NextName, dbTableIndexTemplate, nodeTemplate, execNodes, Node.eval]

theorem dbTableIndexTemplate_injective (d t : String) (i j : Int)
    (h : (({ Index := i, DB := d, Table := t } : outputFileNamer).NextName
            dbTableIndexTemplate).1 =
         (({ Index := j, DB := d, Table := t } : outputFileNamer).NextName
            dbTableIndexTemplate).1) : i = j := by
  rw [dbTableIndexTemplate_render, dbTableIndexTemplate_render] at h
  exact intToString_injective i j (string_append_left_cancel _ _ _ (Prod.mk.inj h).1)

/-! ## Successive names -/

/-- C2, as amended: for every chunk identity (d, t, c), every template and
every N, N successive `NextName` calls on the namer built by
`newOutputFileNamer` yield N results, the k-th of which (k = 0..N-1) is the
result of `NextName` on the state with Index = c + k in Go's `int` arithmetic
(`indexAfter c k`); for N up to 2^64 these indices are pairwise different,
whatever the template; and for N up to 2^64 the N results are pairwise
different whenever the template is injective in the index for this database
and table. -/
theorem nextNames_indices_distinct {ρ : Type} (tmpl : Template) (ir : TableDataIR ρ) (N : Nat) :
    (nextNames tmpl N (newOutputFileNamer ir)).1.length = N ∧
    (∀ k, k < N → (nextNames tmpl N (newOutputFileNamer ir)).1[k]? =
      some (({ Index := indexAfter ir.ChunkIndex k, DB := ir.DatabaseName,
               Table := ir.TableName } : outputFileNamer).NextName tmpl).1) ∧
    (N ≤ 18446744073709551616 → ∀ k k', k < N → k' < N → k ≠ k' →
      indexAfter ir.ChunkIndex k ≠ indexAfter ir.ChunkIndex k') ∧
    (N ≤ 18446744073709551616 →
      (∀ i j : Int,
        (({ Index := i, DB := ir.DatabaseName, Table := ir.TableName }
            : outputFileNamer).NextName tmpl).1 =
        (({ Index := j, DB := ir.DatabaseName, Table := ir.TableName }
            : outputFileNamer).NextName tmpl).1 → i = j) →
      ∀ k k', k < N → k' < N → k ≠ k' →
        (nextNames tmpl N (newOutputFileNamer ir)).1[k]? ≠
          (nextNames tmpl N (newOutputFileNamer ir)).1[k']?) := by
  have hget : ∀ k, k < N → (nextNames tmpl N (newOutputFileNamer ir)).1[k]? =
      some (({ Index := indexAfter ir.ChunkIndex k, DB := ir.DatabaseName,
               Table := ir.TableName } : outputFileNamer).NextName tmpl).1 := by
    intro k hk
    rw [nextNames_getElem? tmpl N _ k hk]
    rfl
  have hidx : N ≤ 18446744073709551616 → ∀ k k', k < N → k' < N → k ≠ k' →
      indexAfter ir.ChunkIndex k ≠ indexAfter ir.ChunkIndex k' := by
    intro hN k k' hk hk' hne h
    exact hne (indexAfter_injOn _ k k' (by omega) (by omega) h)
  refine ⟨nextNames_length _ _ _, hget, hidx, ?_⟩
  intro hN hinj k k' hk hk' hne h
  rw [hget k hk, hget k' hk'] at h
  exact hidx hN k k' hk hk' hne (hinj _ _ (Option.some.inj h))

/-- Witness for C2: the template `{{.DB}}.{{.Table}}.{{.Index}}` is injective
in the index, and three calls for the chunk (d, t, 2) return the pairwise
different names `d.t.2`, `d.t.3` and `d.t.4`. -/
theorem nextNames_indices_distinct_witness :
    (nextNames dbTableIndexTemplate 3 (newOutputFileNamer (sampleIR []))).1
        = [("d.t.2", none), ("d.t.3", none), ("d.t.4", none)] ∧
    (∀ k k', k < 3 → k' < 3 → k ≠ k' →
      indexAfter (sampleIR []).ChunkIndex k ≠ indexAfter (sampleIR []).ChunkIndex k') ∧
    (∀ k k', k < 3 → k' < 3 → k ≠ k' →
      (nextNames dbTableIndexTemplate 3 (newOutputFileNamer (sampleIR []))).1[k]? ≠
        (nextNames dbTableIndexTemplate 3 (newOutputFileNamer (sampleIR []))).1[k']?) :=
  ⟨by decide,
   (nextNames_indices_distinct dbTableIndexTemplate (sampleIR []) 3).2.2.1 (by decide),
   (nextNames_indices_distinct dbTableIndexTemplate (sampleIR []) 3).2.2.2 (by decide)
     (dbTableIndexTemplate_injective _ _)⟩

/-- C2 fails as stated: a template that does not mention the index renders
the same name on every call, and after 2^64 calls the 64-bit index is back at
its first value. -/
theorem nextNames_not_distinct :
    (nextNames (nodeTemplate [.text "data"]) 2 (newOutputFileNamer (sampleIR []))).1
        = [("data", none), ("data", none)] ∧
    ¬ (nextNames (nodeTemplate [.text "data"]) 2 (newOutputFileNamer (sampleIR []))).1.Nodup ∧
    indexAfter (sampleIR []).ChunkIndex 18446744073709551616
        = indexAfter (sampleIR []).ChunkIndex 0 := by
  refine ⟨by decide, by decide, ?_⟩
  simp [indexAfter, sampleIR, wrapInt64]

/-! ## The rollover loop, one round at a time -/

theorem foldl_WriteString (ws : List String) (w : InterceptFileWriter) :
    ws.foldl InterceptFileWriter.WriteString w =
      { path := w.path, writes := w.writes ++ ws,
        SomethingIsWritten := w.SomethingIsWritten || ws.any fun s => decide (s ≠ "") } := by
  induction ws generalizing w with
  | nil => simp
  | cons a ws ih =>
    simp only [List.foldl_cons, ih, InterceptFileWriter.WriteString, List.any_cons,
      List.append_assoc, List.singleton_append, Bool.or_assoc]

theorem foldl_WriteString_build {σ : Type} (path : String) (res : EncodeResult σ) :
    res.writes.foldl InterceptFileWriter.WriteString (buildInterceptFileWriter path)
      = sinkAfter path res := by
  rw [foldl_WriteString]
  simp [buildInterceptFileWriter, sinkAfter, EncodeResult.wroteBytes]

theorem rolloverLoop_zero {σ : Type} (lib : Lib) (cfg : Config) (ext : String)
    (enc : σ → EncodeResult σ) (i : Nat) (fileName : String) (namer : outputFileNamer)
    (it : σ) : rolloverLoop lib cfg ext enc 0 i fileName namer it = none := rfl

theorem rolloverLoop_succ {σ : Type} (lib : Lib) (cfg : Config) (ext : String)
    (enc : σ → EncodeResult σ) (fuel i : Nat) (fileName : String) (namer : outputFileNamer)
    (it : σ) :
    rolloverLoop lib cfg ext enc (fuel + 1) i fileName namer it =
      match (enc it).err with
      | some err =>
        some { ret := some err, namer := namer, iter := some (enc it).iter,
               files := [sinkAfter (lib.pathJoin cfg.OutputDirPath fileName) (enc it)],
               events := roundEvents i (lib.pathJoin cfg.OutputDirPath fileName) (enc it).err }
      | none =>
        if (enc it).wroteBytes = false ∨ cfg.FileSize = UnspecifiedSize then
          some { ret := none, namer := namer, iter := some (enc it).iter,
                 files := [sinkAfter (lib.pathJoin cfg.OutputDirPath fileName) (enc it)],
                 events := roundEvents i (lib.pathJoin cfg.OutputDirPath fileName) (enc it).err }
        else
          match (namer.NextName cfg.OutputFileTemplate).1.2 with
          | some err =>
            some { ret := some err, namer := (namer.NextName cfg.OutputFileTemplate).2,
                   iter := some (enc it).iter,
                   files := [sinkAfter (lib.pathJoin cfg.OutputDirPath fileName) (enc it)],
                   events := roundEvents i (lib.pathJoin cfg.OutputDirPath fileName) (enc it).err
                     ++ [Event.nextName namer (namer.NextName cfg.OutputFileTemplate).1] }
          | none =>
            (rolloverLoop lib cfg ext enc fuel (i + 1)
              ((namer.NextName cfg.OutputFileTemplate).1.1 ++ ext)
              (namer.NextName cfg.OutputFileTemplate).2 (enc it).iter).map
              fun out =>
                { out with
                  files := sinkAfter (lib.pathJoin cfg.OutputDirPath fileName) (enc it)
                    :: out.files,
                  events := roundEvents i (lib.pathJoin cfg.OutputDirPath fileName) (enc it).err
                    ++ Event.nextName namer (namer.NextName cfg.OutputFileTemplate).1
                      :: out.events } := by
  simp only [rolloverLoop, foldl_WriteString_build, roundEvents]
  cases (enc it).err with
  | some err => rfl
  | none =>
    by_cases hw : (enc it).wroteBytes = false
    · simp [hw, sinkAfter]
    · by_cases hF : cfg.FileSize = UnspecifiedSize
      · simp [hw, hF, sinkAfter]
      · simp only [Bool.not_eq_false] at hw
        simp [hw, hF, sinkAfter]

/-- Induction over the rounds of a run of the loop that exits: a property of
(sink number, file name, namer, iterator, outcome) holds of every exiting run
when it holds of the three ways a round ends the loop and is preserved by a
round that continues. -/
theorem rolloverLoop_induct {σ : Type} (lib : Lib) (cfg : Config) (ext : String)
    (enc : σ → EncodeResult σ)
    (P : Nat → String → outputFileNamer → σ → Outcome σ → Prop)
    (hErr : ∀ i fileName namer it err, (enc it).err = some err →
      P i fileName namer it
        { ret := some err, namer := namer, iter := some (enc it).iter,
          files := [sinkAfter (lib.pathJoin cfg.OutputDirPath fileName) (enc it)],
          events := roundEvents i (lib.pathJoin cfg.OutputDirPath fileName) (some err) })
    (hStop : ∀ i fileName namer it, (enc it).err = none →
      ((enc it).wroteBytes = false ∨ cfg.FileSize = UnspecifiedSize) →
      P i fileName namer it
        { ret := none, namer := namer, iter := some (enc it).iter,
          files := [sinkAfter (lib.pathJoin cfg.OutputDirPath fileName) (enc it)],
          events := roundEvents i (lib.pathJoin cfg.OutputDirPath fileName) none })
    (hName : ∀ i fileName namer it err, (enc it).err = none →
      (enc it).wroteBytes = true → cfg.FileSize ≠ UnspecifiedSize →
      (namer.NextName cfg.OutputFileTemplate).1.2 = some err →
      P i fileName namer it
        { ret := some err, namer := (namer.NextName cfg.OutputFileTemplate).2,
          iter := some (enc it).iter,
          files := [sinkAfter (lib.pathJoin cfg.OutputDirPath fileName) (enc it)],
          events := roundEvents i (lib.pathJoin cfg.OutputDirPath fileName) none
            ++ [Event.nextName namer (namer.NextName cfg.OutputFileTemplate).1] })
    (hStep : ∀ i fileName namer it out, (enc it).err = none →
      (enc it).wroteBytes = true → cfg.FileSize ≠ UnspecifiedSize →
      (namer.NextName cfg.OutputFileTemplate).1.2 = none →
      P (i + 1) ((namer.NextName cfg.OutputFileTemplate).1.1 ++ ext)
        (namer.NextName cfg.OutputFileTemplate).2 (enc it).iter out →
      P i fileName namer it
        { out with
          files := sinkAfter (lib.pathJoin cfg.OutputDirPath fileName) (enc it) :: out.files,
          events := roundEvents i (lib.pathJoin cfg.OutputDirPath fileName) none
            ++ Event.nextName namer (namer.NextName cfg.OutputFileTemplate).1 :: out.events })
    (fuel i : Nat) (fileName : String) (namer : outputFileNamer) (it : σ) (out : Outcome σ)
    (h : rolloverLoop lib cfg ext enc fuel i fileName namer it = some out) :
    P i fileName namer it out := by
  induction fuel generalizing i fileName namer it out with
  | zero => simp [rolloverLoop_zero] at h
  | succ fuel ih =>
    rw [rolloverLoop_succ] at h
    cases he : (enc it).err with
    | some err =>
      simp only [he, Option.some.injEq] at h
      subst h
      exact hErr i fileName namer it err he
    | none =>
      simp only [he] at h
      by_cases hc : (enc it).wroteBytes = false ∨ cfg.FileSize = UnspecifiedSize
      · simp only [hc, if_true, Option.some.injEq] at h
        subst h
        exact hStop i fileName namer it he hc
      · simp only [hc, if_false] at h
        have hw : (enc it).wroteBytes = true := by
          cases hb : (enc it).wroteBytes
          · exact absurd (Or.inl hb) hc
          · rfl
        have hF : cfg.FileSize ≠ UnspecifiedSize := fun hF => hc (Or.inr hF)
        cases hn : (namer.NextName cfg.OutputFileTemplate).1.2 with
        | some err =>
          simp only [hn, Option.some.injEq] at h
          subst h
          exact hName i fileName namer it err he hw hF hn
        | none =>
          simp only [hn, Option.map_eq_some'] at h
          obtain ⟨out', hout', rfl⟩ := h
          exact hStep i fileName namer it out' he hw hF hn (ih _ _ _ _ _ hout')

theorem writeTableData_unfold {ρ σ : Type} (lib : Lib) (cfg : Config) (ext : String)
    (build : TableDataIR ρ → Nat → Nat → σ) (enc : σ → EncodeResult σ) (fuel : Nat)
    (ir : TableDataIR ρ) :
    writeTableData lib cfg ext build enc fuel ir =
      match ((newOutputFileNamer ir).NextName cfg.OutputFileTemplate).1.2 with
      | some err =>
        some { ret := some err,
               namer := ((newOutputFileNamer ir).NextName cfg.OutputFileTemplate).2,
               iter := none, files := [],
               events := [Event.nextName (newOutputFileNamer ir)
                 ((newOutputFileNamer ir).NextName cfg.OutputFileTemplate).1] }
      | none =>
        (rolloverLoop lib cfg ext enc fuel 0
          (((newOutputFileNamer ir).NextName cfg.OutputFileTemplate).1.1 ++ ext)
          ((newOutputFileNamer ir).NextName cfg.OutputFileTemplate).2
          (build ir cfg.FileSize cfg.StatementSize)).map
          fun lo =>
            { lo with
              events := Event.nextName (newOutputFileNamer ir)
                  ((newOutputFileNamer ir).NextName cfg.OutputFileTemplate).1
                :: Event.buildChunksIter :: lo.events ++ [Event.closeRows] } := rfl

/-- The two ways `writeTableData` returns: before the iterator is built, on an
error of the first `NextName`; or after the loop, with the deferred `Close`. -/
theorem writeTableData_cases {ρ σ : Type} (lib : Lib) (cfg : Config) (ext : String)
    (build : TableDataIR ρ → Nat → Nat → σ) (enc : σ → EncodeResult σ) (fuel : Nat)
    (ir : TableDataIR ρ) (out : Outcome σ)
    (h : writeTableData lib cfg ext build enc fuel ir = some out) :
    (∃ err, ((newOutputFileNamer ir).NextName cfg.OutputFileTemplate).1.2 = some err ∧
      out = { ret := some err,
              namer := ((newOutputFileNamer ir).NextName cfg.OutputFileTemplate).2,
              iter := none, files := [],
              events := [Event.nextName (newOutputFileNamer ir)
                ((newOutputFileNamer ir).NextName cfg.OutputFileTemplate).1] }) ∨
    (∃ lo, ((newOutputFileNamer ir).NextName cfg.OutputFileTemplate).1.2 = none ∧
      rolloverLoop lib cfg ext enc fuel 0
        (((newOutputFileNamer ir).NextName cfg.OutputFileTemplate).1.1 ++ ext)
        ((newOutputFileNamer ir).NextName cfg.OutputFileTemplate).2
        (build ir cfg.FileSize cfg.StatementSize) = some lo ∧
      out = { lo with
              events := Event.nextName (newOutputFileNamer ir)
                  ((newOutputFileNamer ir).NextName cfg.OutputFileTemplate).1
                :: Event.buildChunksIter :: lo.events ++ [Event.closeRows] }) := by
  unfold writeTableData at h
  cases hn : ((newOutputFileNamer ir).NextName cfg.OutputFileTemplate).1.2 with
  | some err =>
    left
    simp only [hn, Option.some.injEq] at h
    exact ⟨err, rfl, h.symm⟩
  | none =>
    right
    simp only [hn, Option.map_eq_some'] at h
    obtain ⟨lo, hlo, rfl⟩ := h
    exact ⟨lo, rfl, hlo, rfl⟩

theorem SimpleWriter.writeTableDataLoop_eq_rolloverLoop {ρ σ : Type} (f : SimpleWriter) (lib : Lib)
    (encs : Encoders ρ σ) (fuel i : Nat) (fileName : String) (namer : outputFileNamer)
    (it : σ) :
    f.writeTableDataLoop lib encs fuel i fileName namer it
      = rolloverLoop lib f.cfg ".sql" encs.WriteInsert fuel i fileName namer it := by
  induction fuel generalizing i fileName namer it with
  | zero => rfl
  | succ fuel ih => simp only [SimpleWriter.writeTableDataLoop, rolloverLoop, ih]

theorem CsvWriter.writeTableDataLoop_csv_eq_rolloverLoop {ρ σ : Type} (f : CsvWriter) (lib : Lib)
    (encs : Encoders ρ σ) (opt : csvOption) (fuel i : Nat) (fileName : String)
    (namer : outputFileNamer) (it : σ) :
    f.writeTableDataLoop lib encs opt fuel i fileName namer it
      = rolloverLoop lib f.cfg ".csv" (fun s => encs.WriteInsertInCsv s f.cfg.NoHeader opt)
          fuel i fileName namer it := by
  induction fuel generalizing i fileName namer it with
  | zero => rfl
  | succ fuel ih => simp only [CsvWriter.writeTableDataLoop, rolloverLoop, ih]

theorem Writer.WriteTableData_eq {ρ σ : Type} (w : Writer) (lib : Lib) (encs : Encoders ρ σ)
    (fuel : Nat) (ir : TableDataIR ρ) :
    w.WriteTableData lib encs fuel ir =
      writeTableData lib w.cfg w.ext encs.buildChunksIter (w.encode encs) fuel ir := by
  cases w with
  | simple f =>
    simp only [Writer.WriteTableData, SimpleWriter.WriteTableData, writeTableData,
      SimpleWriter.writeTableDataLoop_eq_rolloverLoop, Writer.cfg, Writer.ext, Writer.encode]
  | csv f =>
    simp only [Writer.WriteTableData, CsvWriter.WriteTableData, writeTableData,
      CsvWriter.writeTableDataLoop_csv_eq_rolloverLoop, Writer.cfg, Writer.ext, Writer.encode]

/-! ## Paths of the sinks -/

theorem NextName_at_index (c : Int) (d t : String) (k : Nat) (tmpl : Template) :
    (({ Index := indexAfter c k, DB := d, Table := t } : outputFileNamer).NextName tmpl).2
      = { Index := indexAfter c (k + 1), DB := d, Table := t } := by
  rw [NextName_namer, indexAfter_succ]

theorem rolloverLoop_paths {σ : Type} (lib : Lib) (cfg : Config) (ext : String)
    (enc : σ → EncodeResult σ) (c : Int) (d t : String)
    (fuel i : Nat) (fileName : String) (namer : outputFileNamer) (it : σ) (out : Outcome σ)
    (h : rolloverLoop lib cfg ext enc fuel i fileName namer it = some out)
    (hn : namer = { Index := indexAfter c (i + 1), DB := d, Table := t })
    (hf : fileName =
      (cfg.OutputFileTemplate.Execute { Index := indexAfter c i, DB := d, Table := t }).1 ++ ext) :
    (∀ j w, out.files[j]? = some w → w.path = lib.pathJoin cfg.OutputDirPath
      ((cfg.OutputFileTemplate.Execute
        { Index := indexAfter c (i + j), DB := d, Table := t }).1 ++ ext)) ∧
    (∀ j q, Event.openSink j q ∈ out.events → i ≤ j ∧ q = lib.pathJoin cfg.OutputDirPath
      ((cfg.OutputFileTemplate.Execute
        { Index := indexAfter c j, DB := d, Table := t }).1 ++ ext)) := by
  revert hn hf
  refine rolloverLoop_induct lib cfg ext enc
    (fun i fileName namer _ out =>
      namer = { Index := indexAfter c (i + 1), DB := d, Table := t } →
      fileName = (cfg.OutputFileTemplate.Execute
        { Index := indexAfter c i, DB := d, Table := t }).1 ++ ext →
      (∀ j w, out.files[j]? = some w → w.path = lib.pathJoin cfg.OutputDirPath
        ((cfg.OutputFileTemplate.Execute
          { Index := indexAfter c (i + j), DB := d, Table := t }).1 ++ ext)) ∧
      (∀ j q, Event.openSink j q ∈ out.events → i ≤ j ∧ q = lib.pathJoin cfg.OutputDirPath
        ((cfg.OutputFileTemplate.Execute
          { Index := indexAfter c j, DB := d, Table := t }).1 ++ ext)))
    ?_ ?_ ?_ ?_ fuel i fileName namer it out h
  · intro i fileName namer it err _ _ hf
    subst hf
    constructor
    · intro j w hj
      cases j with
      | zero => simp at hj; subst hj; simp [sinkAfter]
      | succ j => simp at hj
    · intro j q hq
      simp [roundEvents] at hq
      obtain ⟨rfl, rfl⟩ := hq
      simp
  · intro i fileName namer it _ _ _ hf
    subst hf
    constructor
    · intro j w hj
      cases j with
      | zero => simp at hj; subst hj; simp [sinkAfter]
      | succ j => simp at hj
    · intro j q hq
      simp [roundEvents] at hq
      obtain ⟨rfl, rfl⟩ := hq
      simp
  · intro i fileName namer it err _ _ _ _ _ hf
    subst hf
    constructor
    · intro j w hj
      cases j with
      | zero => simp at hj; subst hj; simp [sinkAfter]
      | succ j => simp at hj
    · intro j q hq
      simp [roundEvents] at hq
      obtain ⟨rfl, rfl⟩ := hq
      simp
  · intro i fileName namer it out _ _ _ hok ih hn hf
    subst hf
    have hnm : (namer.NextName cfg.OutputFileTemplate).2
        = { Index := indexAfter c (i + 1 + 1), DB := d, Table := t } := by
      rw [hn, NextName_at_index]
    have hfn : (namer.NextName cfg.OutputFileTemplate).1.1 ++ ext
        = (cfg.OutputFileTemplate.Execute
            { Index := indexAfter c (i + 1), DB := d, Table := t }).1 ++ ext := by
      rw [NextName_ok _ _ hok, hn]
    obtain ⟨ih1, ih2⟩ := ih hnm hfn
    constructor
    · intro j w hj
      cases j with
      | zero => simp at hj; subst hj; simp [sinkAfter]
      | succ j =>
        simp only [List.getElem?_cons_succ] at hj
        have e : i + 1 + j = i + (j + 1) := by omega
        have := ih1 j w hj
        rw [e] at this
        exact this
    · intro j q hq
      simp only [roundEvents, List.cons_append, List.nil_append, List.mem_cons,
        Event.openSink.injEq, reduceCtorEq, false_or] at hq
      rcases hq with ⟨rfl, rfl⟩ | hq
      · simp
      · obtain ⟨h1, h2⟩ := ih2 j q hq
        exact ⟨by omega, h2⟩

/-- C8: in every run of `WriteTableData` on a chunk with identity (d, t, c),
the j-th sink opened (j = 0, 1, ...) has the path `cfg.OutputDirPath` joined
with the template rendered on (Index = c + j in Go's `int` arithmetic, DB = d,
Table = t) followed by the writer's extension, which is ".sql" for
`SimpleWriter` and ".csv" for `CsvWriter`; the same holds of every open
event of the run. -/
theorem WriteTableData_sink_paths {ρ σ : Type} (w : Writer) (lib : Lib) (encs : Encoders ρ σ)
    (fuel : Nat) (ir : TableDataIR ρ) (out : Outcome σ)
    (h : w.WriteTableData lib encs fuel ir = some out) :
    (∀ j s, out.files[j]? = some s → s.path = lib.pathJoin w.cfg.OutputDirPath
      ((w.cfg.OutputFileTemplate.Execute
        { Index := indexAfter ir.ChunkIndex j, DB := ir.DatabaseName,
          Table := ir.TableName }).1 ++ w.ext)) ∧
    (∀ j q, Event.openSink j q ∈ out.events → q = lib.pathJoin w.cfg.OutputDirPath
      ((w.cfg.OutputFileTemplate.Execute
        { Index := indexAfter ir.ChunkIndex j, DB := ir.DatabaseName,
          Table := ir.TableName }).1 ++ w.ext)) ∧
    (∀ f, (Writer.simple f).ext = ".sql") ∧ (∀ f, (Writer.csv f).ext = ".csv") := by
  rw [Writer.WriteTableData_eq] at h
  refine ⟨?_, ?_, fun _ => rfl, fun _ => rfl⟩
  · rcases writeTableData_cases _ _ _ _ _ _ _ _ h with ⟨err, _, rfl⟩ | ⟨lo, hok, hlo, rfl⟩
    · intro j s hj
      simp at hj
    · intro j s hj
      have := (rolloverLoop_paths lib w.cfg w.ext (w.encode encs) ir.ChunkIndex
        ir.DatabaseName ir.TableName fuel 0 _ _ _ lo hlo
        (by rw [← indexAfter_zero ir.ChunkIndex]; exact NextName_at_index _ _ _ 0 _)
        (by rw [NextName_ok _ _ hok, indexAfter_zero]; rfl)).1 j s hj
      simpa using this
  · rcases writeTableData_cases _ _ _ _ _ _ _ _ h with ⟨err, _, rfl⟩ | ⟨lo, hok, hlo, rfl⟩
    · intro j q hq
      simp at hq
    · intro j q hq
      simp only [List.mem_cons, List.mem_append, reduceCtorEq, false_or, List.mem_singleton,
        or_false, List.cons_append, List.not_mem_nil] at hq
      exact ((rolloverLoop_paths lib w.cfg w.ext (w.encode encs) ir.ChunkIndex
        ir.DatabaseName ir.TableName fuel 0 _ _ _ lo hlo
        (by rw [← indexAfter_zero ir.ChunkIndex]; exact NextName_at_index _ _ _ 0 _)
        (by rw [NextName_ok _ _ hok, indexAfter_zero]; rfl)).2 j q hq).2

/-- Witness for C8: a `SimpleWriter` run over two rows, one row per file,
opens `out/d.t.2.sql`, `out/d.t.3.sql` and `out/d.t.4.sql`. -/
theorem WriteTableData_sink_paths_witness :
    ∃ out, (sampleSimple 1).WriteTableData okLib (encodersOf (takeEncoder 1)) 5
        (sampleIR ["a", "b"]) = some out ∧
      out.files.map (fun s => s.path) = ["out/d.t.2.sql", "out/d.t.3.sql", "out/d.t.4.sql"] ∧
      ∀ j s, out.files[j]? = some s → s.path = okLib.pathJoin (sampleSimple 1).cfg.OutputDirPath
        (((sampleSimple 1).cfg.OutputFileTemplate.Execute
          { Index := indexAfter (sampleIR ["a", "b"]).ChunkIndex j,
            DB := (sampleIR ["a", "b"]).DatabaseName,
            Table := (sampleIR ["a", "b"]).TableName }).1 ++ (sampleSimple 1).ext) :=
  ⟨_, rfl, by decide,
    (WriteTableData_sink_paths (sampleSimple 1) okLib (encodersOf (takeEncoder 1)) 5
      (sampleIR ["a", "b"]) _ rfl).1⟩

/-! ## Unspecified file size -/

/-- C5: when `cfg.FileSize` equals `UnspecifiedSize`, `WriteTableData` (of
either writer) returns for every positive amount of fuel, and every successful
run opened exactly one sink, invoked the encoder exactly once, called
`NextName` exactly once and left the namer at the chunk index + 1 (in Go's
`int` arithmetic), whatever the row stream. -/
theorem WriteTableData_unspecified_size {ρ σ : Type} (w : Writer) (lib : Lib)
    (encs : Encoders ρ σ) (fuel : Nat) (ir : TableDataIR ρ)
    (hF : w.cfg.FileSize = UnspecifiedSize) :
    ∃ out, w.WriteTableData lib encs (fuel + 1) ir = some out ∧
      (out.ret = none →
        out.files.length = 1 ∧ countOpen out.events = 1 ∧ countEncode out.events = 1 ∧
        countNextName out.events = 1 ∧
        out.namer = { Index := wrapInt64 (ir.ChunkIndex + 1), DB := ir.DatabaseName,
                      Table := ir.TableName }) := by
  rw [Writer.WriteTableData_eq, writeTableData_unfold]
  cases hn : ((newOutputFileNamer ir).NextName w.cfg.OutputFileTemplate).1.2 with
  | some err => exact ⟨_, rfl, by simp⟩
  | none =>
    simp only [rolloverLoop_succ]
    cases he : (w.encode encs (encs.buildChunksIter ir w.cfg.FileSize w.cfg.StatementSize)).err with
    | some err => exact ⟨_, rfl, by simp⟩
    | none =>
      simp only [hF, or_true, if_true, Option.map_some']
      refine ⟨_, rfl, fun _ => ?_⟩
      simp [countOpen, countEncode, countNextName, roundEvents, NextName_namer,
        newOutputFileNamer]

/-- Witness for C5: a `CsvWriter` with unspecified file size over two rows and
an encoder that writes one row per invocation opens the single file
`out/d.t.2.csv`. -/
theorem WriteTableData_unspecified_size_witness :
    ∃ out, (sampleCsv UnspecifiedSize).WriteTableData okLib (encodersOf (takeEncoder 1)) 1
        (sampleIR ["a", "b"]) = some out ∧
      (out.ret = none →
        out.files.length = 1 ∧ countOpen out.events = 1 ∧ countEncode out.events = 1 ∧
        countNextName out.events = 1 ∧
        out.namer = { Index := wrapInt64 ((sampleIR ["a", "b"]).ChunkIndex + 1),
                      DB := (sampleIR ["a", "b"]).DatabaseName,
                      Table := (sampleIR ["a", "b"]).TableName }) :=
  WriteTableData_unspecified_size (sampleCsv UnspecifiedSize) okLib (encodersOf (takeEncoder 1)) 0
    (sampleIR ["a", "b"]) rfl

/-! ## Shape of the runs of the loop -/

theorem rolloverLoop_counts {σ : Type} (lib : Lib) (cfg : Config) (ext : String)
    (enc : σ → EncodeResult σ)
    (fuel i : Nat) (fileName : String) (namer : outputFileNamer) (it : σ) (out : Outcome σ)
    (h : rolloverLoop lib cfg ext enc fuel i fileName namer it = some out) :
    1 ≤ out.files.length ∧ countOpen out.events = out.files.length ∧
    countEncode out.events = out.files.length ∧ countClose out.events = 0 ∧
    countNextName out.events ≤ out.files.length ∧
    (out.ret = none → countNextName out.events + 1 = out.files.length) := by
  refine rolloverLoop_induct lib cfg ext enc
    (fun _ _ _ _ out =>
      1 ≤ out.files.length ∧ countOpen out.events = out.files.length ∧
      countEncode out.events = out.files.length ∧ countClose out.events = 0 ∧
      countNextName out.events ≤ out.files.length ∧
      (out.ret = none → countNextName out.events + 1 = out.files.length))
    ?_ ?_ ?_ ?_ fuel i fileName namer it out h
  · intro i fileName namer it err _
    simp [countOpen, countEncode, countClose, countNextName, roundEvents]
  · intro i fileName namer it _ _
    simp [countOpen, countEncode, countClose, countNextName, roundEvents]
  · intro i fileName namer it err _ _ _ _
    simp [countOpen, countEncode, countClose, countNextName, roundEvents]
  · intro i fileName namer it out _ _ _ _ ih
    obtain ⟨h1, h2, h3, h4, h5, h6⟩ := ih
    simp only [countOpen, countEncode, countClose, countNextName] at h2 h3 h4 h5 h6
    simp only [countOpen, countEncode, countClose, countNextName, roundEvents,
      List.cons_append, List.nil_append, List.length_cons, List.filter_cons, if_true, if_false,
      reduceCtorEq, decide_False, Bool.false_eq_true]
    refine ⟨by omega, by omega, by omega, h4, by omega, fun hr => ?_⟩
    have := h6 hr
    omega

theorem rolloverLoop_tail {σ : Type} (lib : Lib) (cfg : Config) (ext : String)
    (enc : σ → EncodeResult σ)
    (fuel i : Nat) (fileName : String) (namer : outputFileNamer) (it : σ) (out : Outcome σ)
    (h : rolloverLoop lib cfg ext enc fuel i fileName namer it = some out) :
    1 ≤ out.files.length ∧
    (∀ j s, out.files[j]? = some s → s.SomethingIsWritten = false →
      j + 1 = out.files.length) ∧
    (out.ret = none →
      ∃ pre q, out.events = pre ++ roundEvents (i + (out.files.length - 1)) q none) := by
  refine rolloverLoop_induct lib cfg ext enc
    (fun i _ _ _ out =>
      1 ≤ out.files.length ∧
      (∀ j s, out.files[j]? = some s → s.SomethingIsWritten = false →
        j + 1 = out.files.length) ∧
      (out.ret = none →
        ∃ pre q, out.events = pre ++ roundEvents (i + (out.files.length - 1)) q none))
    ?_ ?_ ?_ ?_ fuel i fileName namer it out h
  · intro i fileName namer it err _
    refine ⟨by simp, ?_, by simp⟩
    intro j s hj _
    cases j with
    | zero => simp
    | succ j => simp at hj
  · intro i fileName namer it _ _
    refine ⟨by simp, ?_, fun _ => ⟨[], lib.pathJoin cfg.OutputDirPath fileName, by simp⟩⟩
    intro j s hj _
    cases j with
    | zero => simp
    | succ j => simp at hj
  · intro i fileName namer it err _ _ _ _
    refine ⟨by simp, ?_, by simp⟩
    intro j s hj _
    cases j with
    | zero => simp
    | succ j => simp at hj
  · intro i fileName namer it out _ hw _ _ ih
    obtain ⟨h1, h2, h3⟩ := ih
    refine ⟨by simp, ?_, ?_⟩
    · intro j s hj hs
      cases j with
      | zero =>
        simp only [List.getElem?_cons_zero, Option.some.injEq] at hj
        subst hj
        simp [sinkAfter, hw] at hs
      | succ j =>
        simp only [List.getElem?_cons_succ] at hj
        simpa using h2 j s hj hs
    · intro hr
      obtain ⟨pre, q, hpre⟩ := h3 hr
      refine ⟨roundEvents i (lib.pathJoin cfg.OutputDirPath fileName) none
        ++ Event.nextName namer (namer.NextName cfg.OutputFileTemplate).1 :: pre, q, ?_⟩
      have e : i + (out.files.length + 1 - 1) = i + 1 + (out.files.length - 1) := by omega
      simp only [List.length_cons, e, hpre, List.append_assoc, List.cons_append]

/-! ## Empty-tail-file elision -/

/-- C4, as amended: in every successful run of `WriteTableData` (of either
writer) a sink whose `SomethingIsWritten` is false is the last sink opened, the
number of `NextName` calls equals the number of sinks opened, and the run ends
with the round of the last sink followed by the deferred `Close`, so that no
name is requested after the round that wrote nothing.  For a row source with
no rows, provided an encoder invocation on an exhausted stream writes
nothing, the run returns after at most one encoder invocation and exactly one
`NextName` call and no sink received bytes (zero data files); a successful
such run consists of the first `NextName`, `buildChunksIter`, one round on
sink 0 and the deferred `Close`. -/
theorem WriteTableData_empty_tail {ρ σ R : Type} (w : Writer) (lib : Lib)
    (encs : Encoders ρ σ) (ir : TableDataIR ρ) (remaining : σ → List R) :
    (∀ fuel out, w.WriteTableData lib encs fuel ir = some out → out.ret = none →
      (∀ j s, out.files[j]? = some s → s.SomethingIsWritten = false →
        j + 1 = out.files.length) ∧
      countNextName out.events = out.files.length ∧
      ∃ pre q, out.events
        = pre ++ roundEvents (out.files.length - 1) q none ++ [Event.closeRows]) ∧
    (remaining (encs.buildChunksIter ir w.cfg.FileSize w.cfg.StatementSize) = [] →
      (∀ s, remaining s = [] → (w.encode encs s).wroteBytes = false) →
      ∀ fuel, ∃ out, w.WriteTableData lib encs (fuel + 1) ir = some out ∧
        dataFiles out = [] ∧ countNextName out.events = 1 ∧ countEncode out.events ≤ 1 ∧
        (out.ret = none → out.files.length = 1 ∧ countEncode out.events = 1 ∧
          out.events =
            Event.nextName (newOutputFileNamer ir)
                ((newOutputFileNamer ir).NextName w.cfg.OutputFileTemplate).1
              :: Event.buildChunksIter
              :: roundEvents 0 (lib.pathJoin w.cfg.OutputDirPath
                  (((newOutputFileNamer ir).NextName w.cfg.OutputFileTemplate).1.1 ++ w.ext))
                  none
              ++ [Event.closeRows])) := by
  constructor
  · intro fuel out h hret
    rw [Writer.WriteTableData_eq] at h
    rcases writeTableData_cases _ _ _ _ _ _ _ _ h with ⟨err, _, rfl⟩ | ⟨lo, _, hlo, rfl⟩
    · simp at hret
    · obtain ⟨_, h2, h3⟩ := rolloverLoop_tail _ _ _ _ _ _ _ _ _ _ hlo
      obtain ⟨_, _, _, _, _, h6⟩ := rolloverLoop_counts _ _ _ _ _ _ _ _ _ _ hlo
      refine ⟨h2, ?_, ?_⟩
      · have := h6 hret
        simp only [countNextName] at this
        simp only [countNextName, List.cons_append, List.filter_cons, List.filter_append,
          if_true, if_false, reduceCtorEq, List.length_cons, List.length_append,
          List.filter_nil, List.length_nil, Bool.false_eq_true]
        omega
      · obtain ⟨pre, q, hpre⟩ := h3 hret
        refine ⟨Event.nextName (newOutputFileNamer ir)
          ((newOutputFileNamer ir).NextName w.cfg.OutputFileTemplate).1
            :: Event.buildChunksIter :: pre, q, ?_⟩
        simp only [hpre, Nat.zero_add, List.cons_append, List.append_assoc]
  · intro hrows hquiet fuel
    have hq := hquiet _ hrows
    rw [Writer.WriteTableData_eq, writeTableData_unfold]
    cases hn : ((newOutputFileNamer ir).NextName w.cfg.OutputFileTemplate).1.2 with
    | some err =>
      exact ⟨_, rfl, by simp [dataFiles], by simp [countNextName], by simp [countEncode],
        by simp⟩
    | none =>
      simp only [rolloverLoop_succ]
      cases he : (w.encode encs
          (encs.buildChunksIter ir w.cfg.FileSize w.cfg.StatementSize)).err with
      | some err =>
        exact ⟨_, rfl, by simp [dataFiles, sinkAfter, hq],
          by simp [countNextName, roundEvents], by simp [countEncode, roundEvents], by simp⟩
      | none =>
        simp only [hq, true_or, if_true, Option.map_some']
        exact ⟨_, rfl, by simp [dataFiles, sinkAfter, hq],
          by simp [countNextName, roundEvents], by simp [countEncode, roundEvents],
          by simp [countEncode, roundEvents]⟩

/-! ## Fail-fast error propagation -/

theorem firstFailure_append_closeRows (evs : List Event) :
    firstFailure (evs ++ [Event.closeRows]) = firstFailure evs := by
  induction evs with
  | nil => simp [firstFailure, Event.failure]
  | cons e es ih =>
    simp only [firstFailure, List.cons_append, List.find?_cons] at ih ⊢
    cases he : (e.failure).isSome <;> simp [ih]

theorem afterFirstFailure_append (evs tl : List Event) (e : Event)
    (h : firstFailure evs = some e) :
    afterFirstFailure (evs ++ tl) = afterFirstFailure evs ++ tl := by
  induction evs with
  | nil => simp [firstFailure] at h
  | cons a es ih =>
    simp only [firstFailure, List.find?_cons] at h ih
    simp only [List.cons_append, afterFirstFailure]
    cases ha : (a.failure).isSome
    · simp only [ha] at h
      simp [ih h]
    · simp

theorem firstFailure_failure (evs : List Event) (e : Event) (h : firstFailure evs = some e) :
    e.failure ≠ none ∧ e ∈ evs := by
  unfold firstFailure at h
  have h1 := List.find?_some h
  have h2 := List.mem_of_find?_eq_some h
  refine ⟨?_, h2⟩
  intro hn
  simp [hn] at h1

theorem firstFailure_eq_none (evs : List Event) :
    firstFailure evs = none ↔ ∀ e ∈ evs, e.failure = none := by
  unfold firstFailure
  rw [List.find?_eq_none]
  constructor
  · intro h e he
    have := h e he
    cases hf : e.failure with
    | none => rfl
    | some x => simp [hf] at this
  · intro h e he
    simp [h e he]

theorem rolloverLoop_failure {σ : Type} (lib : Lib) (cfg : Config) (ext : String)
    (enc : σ → EncodeResult σ)
    (fuel i : Nat) (fileName : String) (namer : outputFileNamer) (it : σ) (out : Outcome σ)
    (h : rolloverLoop lib cfg ext enc fuel i fileName namer it = some out) :
    out.ret = (firstFailure out.events).bind Event.failure ∧
    (∀ j err, firstFailure out.events = some (Event.encode j err) →
      i ≤ j ∧ afterFirstFailure out.events = [Event.tearDown j] ∧
      countTearDown j out.events = 1) ∧
    (∀ nm r, firstFailure out.events = some (Event.nextName nm r) →
      afterFirstFailure out.events = []) ∧
    (∀ j, j < i → countTearDown j out.events = 0) := by
  refine rolloverLoop_induct lib cfg ext enc
    (fun i _ _ _ out =>
      out.ret = (firstFailure out.events).bind Event.failure ∧
      (∀ j err, firstFailure out.events = some (Event.encode j err) →
        i ≤ j ∧ afterFirstFailure out.events = [Event.tearDown j] ∧
        countTearDown j out.events = 1) ∧
      (∀ nm r, firstFailure out.events = some (Event.nextName nm r) →
        afterFirstFailure out.events = []) ∧
      (∀ j, j < i → countTearDown j out.events = 0))
    ?_ ?_ ?_ ?_ fuel i fileName namer it out h
  · intro i fileName namer it err _
    refine ⟨by simp [firstFailure, roundEvents, Event.failure], ?_, ?_, ?_⟩
    · intro j e hj
      simp [firstFailure, roundEvents, Event.failure] at hj
      obtain ⟨rfl, rfl⟩ := hj
      simp [afterFirstFailure, roundEvents, Event.failure, countTearDown]
    · intro nm r hj
      simp [firstFailure, roundEvents, Event.failure] at hj
    · intro j hj
      simp [countTearDown, roundEvents]
      omega
  · intro i fileName namer it _ _
    refine ⟨by simp [firstFailure, roundEvents, Event.failure], ?_, ?_, ?_⟩
    · intro j e hj
      simp [firstFailure, roundEvents, Event.failure] at hj
    · intro nm r hj
      simp [firstFailure, roundEvents, Event.failure] at hj
    · intro j hj
      simp [countTearDown, roundEvents]
      omega
  · intro i fileName namer it err _ _ _ hn
    refine ⟨by simp [firstFailure, roundEvents, Event.failure, hn], ?_, ?_, ?_⟩
    · intro j e hj
      simp [firstFailure, roundEvents, Event.failure, hn] at hj
    · intro nm r hj
      simp [afterFirstFailure, roundEvents, Event.failure, hn]
    · intro j hj
      simp [countTearDown, roundEvents]
      omega
  · intro i fileName namer it out _ _ _ hn ih
    obtain ⟨h1, h2, h3, h4⟩ := ih
    have hff : firstFailure (roundEvents i (lib.pathJoin cfg.OutputDirPath fileName) none
        ++ Event.nextName namer (namer.NextName cfg.OutputFileTemplate).1 :: out.events)
        = firstFailure out.events := by
      simp [firstFailure, roundEvents, Event.failure, hn]
    have haf : afterFirstFailure (roundEvents i (lib.pathJoin cfg.OutputDirPath fileName) none
        ++ Event.nextName namer (namer.NextName cfg.OutputFileTemplate).1 :: out.events)
        = afterFirstFailure out.events := by
      simp [afterFirstFailure, roundEvents, Event.failure, hn]
    have hct : ∀ j, countTearDown j
        (roundEvents i (lib.pathJoin cfg.OutputDirPath fileName) none
          ++ Event.nextName namer (namer.NextName cfg.OutputFileTemplate).1 :: out.events)
        = (if i = j then 1 else 0) + countTearDown j out.events := by
      intro j
      by_cases hij : i = j
      · simp [countTearDown, roundEvents, hij]
        omega
      · simp [countTearDown, roundEvents, hij]
    simp only [hff, haf, hct]
    refine ⟨h1, ?_, h3, ?_⟩
    · intro j e hj
      obtain ⟨hle, ha, hc⟩ := h2 j e hj
      have hne : i ≠ j := by omega
      exact ⟨by omega, ha, by simp [hne, hc]⟩
    · intro j hj
      have hne : i ≠ j := by omega
      simp [hne, h4 j (by omega)]

theorem firstFailure_bind_ne_none (evs : List Event) :
    (firstFailure evs).bind Event.failure ≠ none ↔ ∃ e ∈ evs, e.failure ≠ none := by
  cases hf : firstFailure evs with
  | none =>
    have := (firstFailure_eq_none evs).1 hf
    constructor
    · intro hc
      exact absurd rfl hc
    · rintro ⟨e, he, hne⟩
      exact absurd (this e he) hne
  | some e =>
    obtain ⟨h1, h2⟩ := firstFailure_failure evs e hf
    exact ⟨fun _ => ⟨e, h2, h1⟩, fun _ => h1⟩

/-- C7: in every run of `WriteTableData` (of either writer) the returned error
is the error of the first `NextName` call or encoder invocation that reported
one, unchanged, and nil when none did; so an error is returned if and only if
some such call returned one.  When the first error came from the encoder
invocation on sink j, all that follows it is the tear-down of sink j and the
deferred `Close`, and sink j was torn down exactly once in the run; when it
came from a `NextName` call, nothing follows it but, at most, the deferred
`Close`.  Hence no name is requested, no sink opened and no encoder invoked
after the first error. -/
theorem WriteTableData_fail_fast {ρ σ : Type} (w : Writer) (lib : Lib) (encs : Encoders ρ σ)
    (fuel : Nat) (ir : TableDataIR ρ) (out : Outcome σ)
    (h : w.WriteTableData lib encs fuel ir = some out) :
    out.ret = (firstFailure out.events).bind Event.failure ∧
    (out.ret ≠ none ↔ ∃ e ∈ out.events, e.failure ≠ none) ∧
    (∀ j err, firstFailure out.events = some (Event.encode j err) →
      afterFirstFailure out.events = [Event.tearDown j, Event.closeRows] ∧
      countTearDown j out.events = 1) ∧
    (∀ nm r, firstFailure out.events = some (Event.nextName nm r) →
      afterFirstFailure out.events = [] ∨
      afterFirstFailure out.events = [Event.closeRows]) := by
  rw [Writer.WriteTableData_eq] at h
  have key : out.ret = (firstFailure out.events).bind Event.failure ∧
      (∀ j err, firstFailure out.events = some (Event.encode j err) →
        afterFirstFailure out.events = [Event.tearDown j, Event.closeRows] ∧
        countTearDown j out.events = 1) ∧
      (∀ nm r, firstFailure out.events = some (Event.nextName nm r) →
        afterFirstFailure out.events = [] ∨
        afterFirstFailure out.events = [Event.closeRows]) := by
    rcases writeTableData_cases _ _ _ _ _ _ _ _ h with ⟨err, hn, rfl⟩ | ⟨lo, hn, hlo, rfl⟩
    · refine ⟨by simp [firstFailure, Event.failure, hn], ?_, ?_⟩
      · intro j e hj
        simp [firstFailure, Event.failure, hn] at hj
      · intro nm r _
        left
        simp [afterFirstFailure, Event.failure, hn]
    · obtain ⟨h1, h2, h3, _⟩ := rolloverLoop_failure _ _ _ _ _ _ _ _ _ _ hlo
      have hff : firstFailure (Event.nextName (newOutputFileNamer ir)
            ((newOutputFileNamer ir).NextName w.cfg.OutputFileTemplate).1
          :: Event.buildChunksIter :: lo.events ++ [Event.closeRows])
          = firstFailure lo.events := by
        rw [← firstFailure_append_closeRows lo.events]
        simp [firstFailure, Event.failure, hn]
      have haf : afterFirstFailure (Event.nextName (newOutputFileNamer ir)
            ((newOutputFileNamer ir).NextName w.cfg.OutputFileTemplate).1
          :: Event.buildChunksIter :: lo.events ++ [Event.closeRows])
          = afterFirstFailure (lo.events ++ [Event.closeRows]) := by
        simp [afterFirstFailure, Event.failure, hn]
      have hct : ∀ j, countTearDown j (Event.nextName (newOutputFileNamer ir)
            ((newOutputFileNamer ir).NextName w.cfg.OutputFileTemplate).1
          :: Event.buildChunksIter :: lo.events ++ [Event.closeRows])
          = countTearDown j lo.events := by
        intro j
        simp [countTearDown, List.filter_append]
      simp only [hff, haf, hct]
      refine ⟨h1, ?_, ?_⟩
      · intro j e hj
        obtain ⟨_, ha, hc⟩ := h2 j e hj
        rw [afterFirstFailure_append _ _ _ hj, ha]
        exact ⟨rfl, hc⟩
      · intro nm r hj
        right
        rw [afterFirstFailure_append _ _ _ hj, h3 nm r hj]
        rfl
  refine ⟨key.1, ?_, key.2.1, key.2.2⟩
  rw [key.1]
  exact firstFailure_bind_ne_none out.events

/-- Witness for C7: a `SimpleWriter` run whose encoder fails on the first
sink returns that error; after the failing invocation only the tear-down of
sink 0 and the deferred `Close` happen. -/
theorem WriteTableData_fail_fast_witness :
    ∃ out, (sampleSimple 1).WriteTableData okLib (encodersOf failEncoder) 3
        (sampleIR ["a", "b"]) = some out ∧
      out.ret = some "write failed" ∧
      out.ret = (firstFailure out.events).bind Event.failure ∧
      afterFirstFailure out.events = [Event.tearDown 0, Event.closeRows] ∧
      countTearDown 0 out.events = 1 :=
  ⟨_, rfl, rfl,
    (WriteTableData_fail_fast (sampleSimple 1) okLib (encodersOf failEncoder) 3
      (sampleIR ["a", "b"]) _ rfl).1,
    (WriteTableData_fail_fast (sampleSimple 1) okLib (encodersOf failEncoder) 3
      (sampleIR ["a", "b"]) _ rfl).2.2.1 0 (some "write failed") (by decide)⟩

/-! ## Closing the row source -/

/-- Every run of `WriteTableData` whose first `NextName` call succeeds calls
the row source's `Close` exactly once, as its last effect. -/
theorem WriteTableData_close_after_loop {ρ σ : Type} (w : Writer) (lib : Lib)
    (encs : Encoders ρ σ) (fuel : Nat) (ir : TableDataIR ρ) (out : Outcome σ)
    (h : w.WriteTableData lib encs fuel ir = some out)
    (hn : ((newOutputFileNamer ir).NextName w.cfg.OutputFileTemplate).1.2 = none) :
    countClose out.events = 1 ∧ out.events.getLast? = some Event.closeRows := by
  rw [Writer.WriteTableData_eq] at h
  rcases writeTableData_cases _ _ _ _ _ _ _ _ h with ⟨err, he, rfl⟩ | ⟨lo, _, hlo, rfl⟩
  · rw [hn] at he
    cases he
  · obtain ⟨_, _, _, h4, _, _⟩ := rolloverLoop_counts _ _ _ _ _ _ _ _ _ _ hlo
    simp only [countClose] at h4
    constructor
    · simp [countClose, List.filter_append, h4]
    · have e : ∀ (a b : Event) (l : List Event),
          a :: b :: (l ++ [Event.closeRows]) = (a :: b :: l) ++ [Event.closeRows] :=
        fun _ _ _ => rfl
      show (_ :: _ :: (lo.events ++ [Event.closeRows])).getLast? = some Event.closeRows
      rw [e, List.getLast?_append]
      simp

/-- Every run of `WriteTableData` whose first `NextName` call fails returns
that error without building the iterator and without calling `Close`. -/
theorem WriteTableData_no_close_on_first_name_error {ρ σ : Type} (w : Writer) (lib : Lib)
    (encs : Encoders ρ σ) (fuel : Nat) (ir : TableDataIR ρ) (err : Error)
    (hn : ((newOutputFileNamer ir).NextName w.cfg.OutputFileTemplate).1.2 = some err) :
    ∃ out, w.WriteTableData lib encs fuel ir = some out ∧ out.ret = some err ∧
      countClose out.events = 0 := by
  rw [Writer.WriteTableData_eq, writeTableData_unfold]
  simp only [hn]
  exact ⟨_, rfl, rfl, by simp [countClose]⟩

/-- C6 (the code departs from the claim): with the template `{{.Foo}}`, whose
execution fails on the first `NextName` call, `WriteTableData` of the
`SimpleWriter` and of the `CsvWriter` returns the error and the row source's
`Close` is never called; the single effect of the run is the `NextName` call. -/
theorem WriteTableData_first_name_error_skips_close :
    (∃ out, (Writer.simple { cfg := sampleConfig badFieldTemplate 1 }).WriteTableData okLib
        (encodersOf (takeEncoder 1)) 3 (sampleIR ["a", "b"]) = some out ∧
      out.ret = some "can't evaluate field Foo in type *export.outputFileNamer" ∧
      countClose out.events = 0 ∧ out.events.length = 1 ∧ countNextName out.events = 1) ∧
    (∃ out, (Writer.csv { cfg := sampleConfig badFieldTemplate 1 }).WriteTableData okLib
        (encodersOf (takeEncoder 1)) 3 (sampleIR ["a", "b"]) = some out ∧
      out.ret = some "can't evaluate field Foo in type *export.outputFileNamer" ∧
      countClose out.events = 0 ∧ out.events.length = 1 ∧ countNextName out.events = 1) :=
  ⟨⟨_, rfl, by decide, by decide, by decide, by decide⟩,
   ⟨_, rfl, by decide, by decide, by decide, by decide⟩⟩

/-! ## No data loss -/

theorem rolloverLoop_rows {σ R : Type} (lib : Lib) (cfg : Config) (ext : String)
    (enc : σ → EncodeResult σ) (remaining : σ → List R) (encodeRow : R → String)
    (hrows : WritesConsumedRows remaining encodeRow enc)
    (fuel i : Nat) (fileName : String) (namer : outputFileNamer) (it : σ) (out : Outcome σ)
    (h : rolloverLoop lib cfg ext enc fuel i fileName namer it = some out) :
    ∃ it', out.iter = some it' ∧
      writtenPayloads out ++ (remaining it').map encodeRow = (remaining it).map encodeRow ∧
      (out.ret = none →
        (∀ s, (enc s).err = none → (enc s).wroteBytes = false → remaining (enc s).iter = []) →
        (cfg.FileSize = UnspecifiedSize → ∀ s, (enc s).err = none →
          remaining (enc s).iter = []) →
        remaining it' = []) := by
  have one : ∀ (q : String) (it : σ),
      (sinkAfter q (enc it)).writes ++ (remaining (enc it).iter).map encodeRow
        = (remaining it).map encodeRow := by
    intro q it
    obtain ⟨k, h1, h2⟩ := hrows it
    simp only [sinkAfter, h1, h2, ← List.map_append, List.take_append_drop]
  refine rolloverLoop_induct lib cfg ext enc
    (fun _ _ _ it out =>
      ∃ it', out.iter = some it' ∧
        writtenPayloads out ++ (remaining it').map encodeRow = (remaining it).map encodeRow ∧
        (out.ret = none →
          (∀ s, (enc s).err = none → (enc s).wroteBytes = false →
            remaining (enc s).iter = []) →
          (cfg.FileSize = UnspecifiedSize → ∀ s, (enc s).err = none →
            remaining (enc s).iter = []) →
          remaining it' = []))
    ?_ ?_ ?_ ?_ fuel i fileName namer it out h
  · intro i fileName namer it err _
    exact ⟨_, rfl, by simpa [writtenPayloads] using one _ it, by simp⟩
  · intro i fileName namer it he hc
    refine ⟨_, rfl, by simpa [writtenPayloads] using one _ it, ?_⟩
    intro _ hquiet hall
    rcases hc with hc | hc
    · exact hquiet it he hc
    · exact hall hc it he
  · intro i fileName namer it err _ _ _ _
    exact ⟨_, rfl, by simpa [writtenPayloads] using one _ it, by simp⟩
  · intro i fileName namer it out _ _ _ _ ih
    obtain ⟨it', h1, h2, h3⟩ := ih
    refine ⟨it', h1, ?_, h3⟩
    have := one (lib.pathJoin cfg.OutputDirPath fileName) it
    simp only [writtenPayloads, List.map_cons, List.flatten_cons, List.append_assoc] at h2 ⊢
    rw [h2, this]

/-- C3, as amended: let every encoder invocation consume a leading segment of
the rows remaining in the chunks iterator and write exactly those rows to the
current sink; let an invocation that returns no error and wrote no byte leave
the stream exhausted, and, when `cfg.FileSize` is `UnspecifiedSize`, let every
invocation that returns no error leave the stream exhausted.  Then whenever
`WriteTableData` (of either writer) returns success, the payloads written to
the sinks, concatenated in the order the sinks were opened, are the encoded
rows of the full row sequence of the freshly built iterator. -/
theorem WriteTableData_no_data_loss {ρ σ R : Type} (w : Writer) (lib : Lib)
    (encs : Encoders ρ σ) (ir : TableDataIR ρ) (remaining : σ → List R)
    (encodeRow : R → String)
    (hrows : WritesConsumedRows remaining encodeRow (w.encode encs))
    (hquiet : ∀ s, (w.encode encs s).err = none → (w.encode encs s).wroteBytes = false →
      remaining (w.encode encs s).iter = [])
    (hall : w.cfg.FileSize = UnspecifiedSize → ∀ s, (w.encode encs s).err = none →
      remaining (w.encode encs s).iter = [])
    (fuel : Nat) (out : Outcome σ)
    (h : w.WriteTableData lib encs fuel ir = some out) (hret : out.ret = none) :
    writtenPayloads out =
      (remaining (encs.buildChunksIter ir w.cfg.FileSize w.cfg.StatementSize)).map
        encodeRow := by
  rw [Writer.WriteTableData_eq] at h
  rcases writeTableData_cases _ _ _ _ _ _ _ _ h with ⟨err, _, rfl⟩ | ⟨lo, _, hlo, rfl⟩
  · simp at hret
  · obtain ⟨it', _, h2, h3⟩ :=
      rolloverLoop_rows lib w.cfg w.ext (w.encode encs) remaining encodeRow hrows _ _ _ _ _ _ hlo
    have hnil := h3 hret hquiet hall
    rw [hnil] at h2
    simpa [writtenPayloads] using h2

theorem encodeLine_ne_empty (r : String) : encodeLine r ≠ "" := by
  intro h
  have := congrArg String.length h
  simp only [encodeLine, String.length_append] at this
  have h1 : ("\n" : String).length = 1 := by decide
  have h0 : ("" : String).length = 0 := by decide
  omega

theorem takeEncoder_writesConsumedRows (k : Nat) :
    WritesConsumedRows (fun s : List String => s) encodeLine (takeEncoder k) :=
  fun _ => ⟨k, rfl, rfl⟩

theorem takeEncoder_wroteBytes (k : Nat) (s : List String) :
    (takeEncoder k s).wroteBytes = true ↔ 0 < k ∧ s ≠ [] := by
  cases k with
  | zero => simp [takeEncoder, EncodeResult.wroteBytes]
  | succ k =>
    cases s with
    | nil => simp [takeEncoder, EncodeResult.wroteBytes]
    | cons a t => simp [takeEncoder, EncodeResult.wroteBytes, encodeLine_ne_empty]

/-- Witness for C3: a `SimpleWriter` with file size 1 over the rows "a", "b"
and an encoder that writes one row per file writes both rows, in order. -/
theorem WriteTableData_no_data_loss_witness :
    ∃ out, (sampleSimple 1).WriteTableData okLib (encodersOf (takeEncoder 1)) 5
        (sampleIR ["a", "b"]) = some out ∧ out.ret = none ∧
      writtenPayloads out = ["a\n", "b\n"] :=
  ⟨_, rfl, rfl,
    WriteTableData_no_data_loss (sampleSimple 1) okLib (encodersOf (takeEncoder 1))
      (sampleIR ["a", "b"]) (fun s => s) encodeLine (takeEncoder_writesConsumedRows 1)
      (fun s _ hw => by
        cases s with
        | nil => rfl
        | cons a t =>
          have := (takeEncoder_wroteBytes 1 (a :: t)).2 ⟨by decide, by simp⟩
          exact absurd (this.symm.trans hw) (by decide))
      (fun hF => absurd hF (by decide)) 5 _ rfl rfl⟩

/-- C3 fails as stated: an encoder that consumes a leading segment of the
remaining rows and writes exactly those rows need not exhaust the stream.
With `FileSize = UnspecifiedSize` and an encoder that writes one row per
invocation, `WriteTableData` returns success after writing only the first of
two rows; with file size 1 and an encoder that consumes and writes nothing, it
returns success having written none of the rows. -/
theorem WriteTableData_can_lose_rows :
    WritesConsumedRows (fun s : List String => s) encodeLine (takeEncoder 1) ∧
    (∃ out, (sampleSimple UnspecifiedSize).WriteTableData okLib (encodersOf (takeEncoder 1)) 5
        (sampleIR ["a", "b"]) = some out ∧ out.ret = none ∧
      writtenPayloads out = ["a\n"] ∧
      writtenPayloads out ≠ (["a", "b"] : List String).map encodeLine) ∧
    WritesConsumedRows (fun s : List String => s) encodeLine (takeEncoder 0) ∧
    (∃ out, (sampleCsv 1).WriteTableData okLib (encodersOf (takeEncoder 0)) 5
        (sampleIR ["a"]) = some out ∧ out.ret = none ∧
      writtenPayloads out = [] ∧
      writtenPayloads out ≠ (["a"] : List String).map encodeLine) :=
  ⟨takeEncoder_writesConsumedRows 1, ⟨_, rfl, rfl, by decide, by decide⟩,
   takeEncoder_writesConsumedRows 0, ⟨_, rfl, rfl, by decide, by decide⟩⟩

/-- Witness for C4: a successful `SimpleWriter` run over two rows, one row per
file, opens three sinks of which only the last is empty; on a row source with
no rows the run opens one sink and produces no data file. -/
theorem WriteTableData_empty_tail_witness :
    (∃ out, (sampleSimple 1).WriteTableData okLib (encodersOf (takeEncoder 1)) 5
        (sampleIR ["a", "b"]) = some out ∧ out.ret = none ∧
      out.files.map (fun s => s.SomethingIsWritten) = [true, true, false] ∧
      ((∀ j s, out.files[j]? = some s → s.SomethingIsWritten = false →
          j + 1 = out.files.length) ∧
        countNextName out.events = out.files.length ∧
        ∃ pre q, out.events
          = pre ++ roundEvents (out.files.length - 1) q none ++ [Event.closeRows])) ∧
    (∃ out, (sampleSimple 1).WriteTableData okLib (encodersOf (takeEncoder 1)) 1
        (sampleIR []) = some out ∧
      dataFiles out = [] ∧ countNextName out.events = 1 ∧ countEncode out.events ≤ 1 ∧
      (out.ret = none → out.files.length = 1 ∧ countEncode out.events = 1 ∧
        out.events =
          [Event.nextName { Index := 2, DB := "d", Table := "t" } ("d.t.2", none),
           Event.buildChunksIter, Event.openSink 0 "out/d.t.2.sql", Event.encode 0 none,
           Event.tearDown 0, Event.closeRows])) :=
  ⟨⟨_, rfl, rfl, by decide,
      (WriteTableData_empty_tail (sampleSimple 1) okLib (encodersOf (takeEncoder 1))
        (sampleIR ["a", "b"]) (fun s : List String => s)).1 5 _ rfl rfl⟩,
    (WriteTableData_empty_tail (sampleSimple 1) okLib (encodersOf (takeEncoder 1))
      (sampleIR []) (fun s : List String => s)).2 rfl
      (fun s hs => by subst hs; rfl) 0⟩

/-! ## Termination of the rollover loop -/

theorem rolloverLoop_terminates {σ R : Type} (lib : Lib) (cfg : Config) (ext : String)
    (enc : σ → EncodeResult σ) (remaining : σ → List R)
    (hprog : ∀ s, (enc s).wroteBytes = true → remaining s ≠ [] →
      (remaining (enc s).iter).length < (remaining s).length)
    (hquiet : ∀ s, remaining s = [] → (enc s).wroteBytes = false)
    (n fuel i : Nat) (fileName : String) (namer : outputFileNamer) (it : σ)
    (hn : (remaining it).length ≤ n) (hfuel : n + 1 ≤ fuel) :
    ∃ out, rolloverLoop lib cfg ext enc fuel i fileName namer it = some out ∧
      countEncode out.events ≤ n + 1 ∧ countNextName out.events ≤ n := by
  induction n generalizing fuel i fileName namer it with
  | zero =>
    obtain ⟨fuel, rfl⟩ : ∃ m, fuel = m + 1 := ⟨fuel - 1, by omega⟩
    have hq : (enc it).wroteBytes = false :=
      hquiet it (List.length_eq_zero.mp (by omega))
    rw [rolloverLoop_succ]
    cases he : (enc it).err with
    | some err => exact ⟨_, rfl, by simp [countEncode, countNextName, roundEvents]⟩
    | none =>
      simp only [hq, true_or, if_true]
      exact ⟨_, rfl, by simp [countEncode, countNextName, roundEvents]⟩
  | succ n ih =>
    obtain ⟨fuel, rfl⟩ : ∃ m, fuel = m + 1 := ⟨fuel - 1, by omega⟩
    rw [rolloverLoop_succ]
    cases he : (enc it).err with
    | some err => exact ⟨_, rfl, by simp [countEncode, countNextName, roundEvents]⟩
    | none =>
      by_cases hc : (enc it).wroteBytes = false ∨ cfg.FileSize = UnspecifiedSize
      · simp only [hc, if_true]
        exact ⟨_, rfl, by simp [countEncode, countNextName, roundEvents]⟩
      · simp only [hc, if_false]
        have hw : (enc it).wroteBytes = true := by
          cases hb : (enc it).wroteBytes
          · exact absurd (Or.inl hb) hc
          · rfl
        have hne : remaining it ≠ [] := by
          intro hnil
          have := hquiet it hnil
          rw [hw] at this
          cases this
        have hlt := hprog it hw hne
        cases hnm : (namer.NextName cfg.OutputFileTemplate).1.2 with
        | some err =>
          exact ⟨_, rfl, by simp [countEncode, countNextName, roundEvents]⟩
        | none =>
          obtain ⟨out, hout, h1, h2⟩ := ih fuel (i + 1)
            ((namer.NextName cfg.OutputFileTemplate).1.1 ++ ext)
            (namer.NextName cfg.OutputFileTemplate).2 (enc it).iter (by omega) (by omega)
          simp only [hout, Option.map_some']
          refine ⟨_, rfl, ?_, ?_⟩
          · simp only [countEncode] at h1
            simp only [countEncode, roundEvents, List.cons_append, List.nil_append,
              List.filter_cons, if_true, if_false, List.length_cons, reduceCtorEq,
              Bool.false_eq_true]
            omega
          · simp only [countNextName] at h2
            simp only [countNextName, roundEvents, List.cons_append, List.nil_append,
              List.filter_cons, if_true, if_false, List.length_cons, reduceCtorEq,
              Bool.false_eq_true]
            omega

theorem rolloverLoop_diverges {σ : Type} (lib : Lib) (cfg : Config) (ext : String)
    (enc : σ → EncodeResult σ) (hF : cfg.FileSize ≠ UnspecifiedSize)
    (ht : ∀ nm, (cfg.OutputFileTemplate.Execute nm).2 = none)
    (hw : ∀ s, (enc s).err = none ∧ (enc s).wroteBytes = true)
    (fuel i : Nat) (fileName : String) (namer : outputFileNamer) (it : σ) :
    rolloverLoop lib cfg ext enc fuel i fileName namer it = none := by
  induction fuel generalizing i fileName namer it with
  | zero => rfl
  | succ fuel ih =>
    have hnm : (namer.NextName cfg.OutputFileTemplate).1.2 = none := by
      rw [NextName_result, ht]
    rw [rolloverLoop_succ]
    simp only [(hw it).1, (hw it).2, hF, hnm, ih, Bool.true_eq_false, or_self, if_false,
      Option.map_none']

/-- C4 fails as stated: on a row source with no rows an encoder that writes a
header on every invocation leaves a data file.  With an unspecified file size
the `CsvWriter` run returns success with one sink, which received bytes; with
file size 1 the loop does not exit after the first invocation, nor after any
number of rounds. -/
theorem WriteTableData_empty_source_header :
    (∃ out, (sampleCsv UnspecifiedSize).WriteTableData okLib (encodersOf headerEncoder) 1
        (sampleIR []) = some out ∧ out.ret = none ∧ out.files.length = 1 ∧
      (dataFiles out).length = 1 ∧ dataFiles out ≠ []) ∧
    (∀ fuel, (sampleCsv 1).WriteTableData okLib (encodersOf headerEncoder) fuel
        (sampleIR []) = none) := by
  refine ⟨⟨_, rfl, rfl, by decide, by decide, by decide⟩, fun fuel => ?_⟩
  have hnm : ((newOutputFileNamer (sampleIR [])).NextName
      (sampleCsv 1).cfg.OutputFileTemplate).1.2 = none := by
    rw [NextName_result]
    simp only [sampleCsv, Writer.cfg, sampleConfig, dbTableIndexTemplate_ok]
  rw [Writer.WriteTableData_eq, writeTableData_unfold]
  simp only [hnm, rolloverLoop_diverges okLib (sampleCsv 1).cfg (sampleCsv 1).ext
    ((sampleCsv 1).encode (encodersOf headerEncoder)) (by decide) dbTableIndexTemplate_ok
    (fun _ => ⟨rfl, rfl⟩), Option.map_none']

/-- C10: let every encoder invocation that writes bytes while rows remain
consume at least one of them, and let an invocation on an exhausted stream
write nothing.  Then for a row stream of n rows `WriteTableData` (of either
writer) returns with any fuel of at least n + 1 rounds, after at most n + 1
encoder invocations and at most n + 1 `NextName` calls.  Without the
assumption the loop need not exit: with a specified file size, a template
that never fails and an encoder that never fails and writes bytes on every
invocation, no amount of fuel suffices. -/
theorem WriteTableData_termination {ρ σ R : Type} (w : Writer) (lib : Lib)
    (encs : Encoders ρ σ) (ir : TableDataIR ρ) (remaining : σ → List R) :
    ((∀ s, (w.encode encs s).wroteBytes = true → remaining s ≠ [] →
        (remaining (w.encode encs s).iter).length < (remaining s).length) →
      (∀ s, remaining s = [] → (w.encode encs s).wroteBytes = false) →
      ∀ fuel,
        (remaining (encs.buildChunksIter ir w.cfg.FileSize w.cfg.StatementSize)).length + 1
          ≤ fuel →
        ∃ out, w.WriteTableData lib encs fuel ir = some out ∧
          countEncode out.events ≤
            (remaining (encs.buildChunksIter ir w.cfg.FileSize w.cfg.StatementSize)).length
              + 1 ∧
          countNextName out.events ≤
            (remaining (encs.buildChunksIter ir w.cfg.FileSize w.cfg.StatementSize)).length
              + 1) ∧
    (w.cfg.FileSize ≠ UnspecifiedSize →
      (∀ nm, (w.cfg.OutputFileTemplate.Execute nm).2 = none) →
      (∀ s, (w.encode encs s).err = none ∧ (w.encode encs s).wroteBytes = true) →
      ∀ fuel, w.WriteTableData lib encs fuel ir = none) := by
  constructor
  · intro hprog hquiet fuel hfuel
    rw [Writer.WriteTableData_eq, writeTableData_unfold]
    cases hn : ((newOutputFileNamer ir).NextName w.cfg.OutputFileTemplate).1.2 with
    | some err => exact ⟨_, rfl, by simp [countEncode], by simp [countNextName]⟩
    | none =>
      obtain ⟨lo, hlo, h1, h2⟩ := rolloverLoop_terminates lib w.cfg w.ext (w.encode encs)
        remaining hprog hquiet _ fuel 0
        (((newOutputFileNamer ir).NextName w.cfg.OutputFileTemplate).1.1 ++ w.ext)
        ((newOutputFileNamer ir).NextName w.cfg.OutputFileTemplate).2
        (encs.buildChunksIter ir w.cfg.FileSize w.cfg.StatementSize) (le_refl _) hfuel
      simp only [hlo, Option.map_some']
      refine ⟨_, rfl, ?_, ?_⟩
      · simp only [countEncode] at h1
        simp only [countEncode, List.cons_append, List.filter_cons, List.filter_append,
          if_true, if_false, List.length_cons, List.length_append, List.filter_nil,
          List.length_nil, reduceCtorEq, Bool.false_eq_true]
        omega
      · simp only [countNextName] at h2
        simp only [countNextName, List.cons_append, List.filter_cons, List.filter_append,
          if_true, if_false, List.length_cons, List.length_append, List.filter_nil,
          List.length_nil, reduceCtorEq, Bool.false_eq_true]
        omega
  · intro hF ht hw fuel
    have hnm : ((newOutputFileNamer ir).NextName w.cfg.OutputFileTemplate).1.2 = none := by
      rw [NextName_result, ht]
    rw [Writer.WriteTableData_eq, writeTableData_unfold]
    simp only [hnm, rolloverLoop_diverges lib w.cfg w.ext (w.encode encs) hF ht hw,
      Option.map_none']

/-- Witness for C10: with two rows and an encoder that writes one row per
invocation the `SimpleWriter` run returns after at most three invocations and
three `NextName` calls; with an encoder that writes a header on every
invocation and consumes nothing the `CsvWriter` run never returns. -/
theorem WriteTableData_termination_witness :
    (∃ out, (sampleSimple 1).WriteTableData okLib (encodersOf (takeEncoder 1)) 3
        (sampleIR ["a", "b"]) = some out ∧
      countEncode out.events ≤ 3 ∧ countNextName out.events ≤ 3) ∧
    (∀ fuel, (sampleCsv 1).WriteTableData okLib (encodersOf headerEncoder) fuel
        (sampleIR ["a", "b"]) = none) :=
  ⟨(WriteTableData_termination (sampleSimple 1) okLib (encodersOf (takeEncoder 1))
      (sampleIR ["a", "b"]) (fun s : List String => s)).1
      (fun s hw _ => by
        have h := (takeEncoder_wroteBytes 1 s).1 hw
        cases s with
        | nil => exact absurd rfl h.2
        | cons a t => simp [encodersOf, Writer.encode, sampleSimple, takeEncoder])
      (fun s hs => by subst hs; rfl) 3 (by decide),
    (WriteTableData_termination (sampleCsv 1) okLib (encodersOf headerEncoder)
      (sampleIR ["a", "b"]) (fun s : List String => s)).2 (by decide)
      dbTableIndexTemplate_ok (fun _ => ⟨rfl, rfl⟩)⟩

/-! ## Metadata writers -/

theorem writeMetaToFile_events (lib : Lib) (target metaSQL path : String) :
    (writeMetaToFile lib target metaSQL path).2.filterMap MetaEvent.opened = [path] ∧
    (∀ md q err, MetaEvent.WriteMeta md q err ∈ (writeMetaToFile lib target metaSQL path).2 →
      md = { target := target, metaSQL := metaSQL } ∧ q = path) := by
  unfold writeMetaToFile
  cases lib.buildFileWriter path with
  | some err => simp [MetaEvent.opened]
  | none =>
    simp only [List.filterMap_cons, MetaEvent.opened, List.filterMap_nil, List.mem_cons,
      reduceCtorEq, MetaEvent.WriteMeta.injEq, false_or, List.not_mem_nil, or_false, true_and]
    intro md q err h
    exact ⟨h.1, h.2.1⟩

/-- C9: for every db, table and createSQL and for both writers,
`WriteDatabaseMeta` works on the single path `cfg.OutputDirPath` joined with
`<db>-schema-create.sql` and `WriteTableMeta` on `cfg.OutputDirPath` joined
with `<db>.<table>-schema.sql`.  Each opens exactly that one file; when the
file opens, it calls `WriteMeta` exactly once, on that file, with createSQL
unchanged as the metadata SQL (and db as the target), tears the file down
afterwards and returns what `WriteMeta` returned; when the file does not open,
it returns that error and does nothing else.  A `SimpleWriter` and a
`CsvWriter` with the same configuration behave identically on both
operations. -/
theorem WriteMeta_paths (w : Writer) (lib : Lib) (db table createSQL : String) :
    (lib.buildFileWriter (lib.pathJoin w.cfg.OutputDirPath (db ++ "-schema-create.sql"))
        = none →
      w.WriteDatabaseMeta lib db createSQL =
        (lib.WriteMeta { target := db, metaSQL := createSQL }
            (lib.pathJoin w.cfg.OutputDirPath (db ++ "-schema-create.sql")),
         [MetaEvent.buildFileWriter
            (lib.pathJoin w.cfg.OutputDirPath (db ++ "-schema-create.sql")) none,
          MetaEvent.WriteMeta { target := db, metaSQL := createSQL }
            (lib.pathJoin w.cfg.OutputDirPath (db ++ "-schema-create.sql"))
            (lib.WriteMeta { target := db, metaSQL := createSQL }
              (lib.pathJoin w.cfg.OutputDirPath (db ++ "-schema-create.sql"))),
          MetaEvent.tearDown
            (lib.pathJoin w.cfg.OutputDirPath (db ++ "-schema-create.sql"))])) ∧
    (∀ err,
      lib.buildFileWriter (lib.pathJoin w.cfg.OutputDirPath (db ++ "-schema-create.sql"))
        = some err →
      w.WriteDatabaseMeta lib db createSQL =
        (some err,
         [MetaEvent.buildFileWriter
            (lib.pathJoin w.cfg.OutputDirPath (db ++ "-schema-create.sql")) (some err)])) ∧
    (lib.buildFileWriter
        (lib.pathJoin w.cfg.OutputDirPath (db ++ "." ++ table ++ "-schema.sql")) = none →
      w.WriteTableMeta lib db table createSQL =
        (lib.WriteMeta { target := db, metaSQL := createSQL }
            (lib.pathJoin w.cfg.OutputDirPath (db ++ "." ++ table ++ "-schema.sql")),
         [MetaEvent.buildFileWriter
            (lib.pathJoin w.cfg.OutputDirPath (db ++ "." ++ table ++ "-schema.sql")) none,
          MetaEvent.WriteMeta { target := db, metaSQL := createSQL }
            (lib.pathJoin w.cfg.OutputDirPath (db ++ "." ++ table ++ "-schema.sql"))
            (lib.WriteMeta { target := db, metaSQL := createSQL }
              (lib.pathJoin w.cfg.OutputDirPath (db ++ "." ++ table ++ "-schema.sql"))),
          MetaEvent.tearDown
            (lib.pathJoin w.cfg.OutputDirPath (db ++ "." ++ table ++ "-schema.sql"))])) ∧
    (∀ err,
      lib.buildFileWriter
        (lib.pathJoin w.cfg.OutputDirPath (db ++ "." ++ table ++ "-schema.sql")) = some err →
      w.WriteTableMeta lib db table createSQL =
        (some err,
         [MetaEvent.buildFileWriter
            (lib.pathJoin w.cfg.OutputDirPath (db ++ "." ++ table ++ "-schema.sql"))
            (some err)])) ∧
    (w.WriteDatabaseMeta lib db createSQL).2.filterMap MetaEvent.opened
      = [lib.pathJoin w.cfg.OutputDirPath (db ++ "-schema-create.sql")] ∧
    (w.WriteTableMeta lib db table createSQL).2.filterMap MetaEvent.opened
      = [lib.pathJoin w.cfg.OutputDirPath (db ++ "." ++ table ++ "-schema.sql")] ∧
    (∀ cfg, (Writer.simple { cfg := cfg }).WriteDatabaseMeta lib db createSQL
        = (Writer.csv { cfg := cfg }).WriteDatabaseMeta lib db createSQL ∧
      (Writer.simple { cfg := cfg }).WriteTableMeta lib db table createSQL
        = (Writer.csv { cfg := cfg }).WriteTableMeta lib db table createSQL) := by
  have hd : w.WriteDatabaseMeta lib db createSQL = writeMetaToFile lib db createSQL
      (lib.pathJoin w.cfg.OutputDirPath (db ++ "-schema-create.sql")) := by
    cases w <;> rfl
  have ht : w.WriteTableMeta lib db table createSQL = writeMetaToFile lib db createSQL
      (lib.pathJoin w.cfg.OutputDirPath (db ++ "." ++ table ++ "-schema.sql")) := by
    cases w <;> rfl
  refine ⟨?_, ?_, ?_, ?_, ?_, ?_, fun _ => ⟨rfl, rfl⟩⟩
  · intro h
    rw [hd]
    simp only [writeMetaToFile, h]
  · intro err h
    rw [hd]
    simp only [writeMetaToFile, h]
  · intro h
    rw [ht]
    simp only [writeMetaToFile, h]
  · intro err h
    rw [ht]
    simp only [writeMetaToFile, h]
  · rw [hd]; exact (writeMetaToFile_events _ _ _ _).1
  · rw [ht]; exact (writeMetaToFile_events _ _ _ _).1

/-- Witness for C9: the `SimpleWriter` writes the table DDL of `d.t` to
`out/d.t-schema.sql` through one `WriteMeta` call carrying the SQL unchanged,
and the `CsvWriter` returns the error of a database file that does not open
without calling `WriteMeta`. -/
theorem WriteMeta_paths_witness :
    (sampleSimple 1).WriteTableMeta okLib "d" "t" "CREATE TABLE t (a INT);" =
      (none,
       [MetaEvent.buildFileWriter "out/d.t-schema.sql" none,
        MetaEvent.WriteMeta { target := "d", metaSQL := "CREATE TABLE t (a INT);" }
          "out/d.t-schema.sql" none,
        MetaEvent.tearDown "out/d.t-schema.sql"]) ∧
    (sampleCsv 1).WriteDatabaseMeta noOpenLib "d" "CREATE DATABASE d;" =
      (some "permission denied",
       [MetaEvent.buildFileWriter "out/d-schema-create.sql" (some "permission denied")]) :=
  ⟨(WriteMeta_paths (sampleSimple 1) okLib "d" "t" "CREATE TABLE t (a INT);").2.2.1 rfl,
   (WriteMeta_paths (sampleCsv 1) noOpenLib "d" "t" "CREATE DATABASE d;").2.1
     "permission denied" rfl⟩

end Export
